import Mathlib

set_option linter.unusedVariables false
set_option maxRecDepth 8192

/-!
Verification development for a TypeScript Redis-clone server.

The definitions below are a shallow embedding of the program's source:
JavaScript `Map`s become association lists that preserve insertion order,
JavaScript numbers are modelled exactly (`Int` where only integers arise,
`Rat` where fractional values can occur; IEEE-754 rounding is noted where it
could deviate, and every theorem stays inside the exactly-representable
range), byte strings are Lean `String`s (the sources only manipulate ASCII
data in the code paths under study), and thrown JavaScript exceptions become
an `Except` error channel.
-/

namespace RedisSpec

/-! ## JavaScript primitives: strings and numbers -/

/-- Whitespace recognized by the JavaScript number-parsing functions. -/
def jsIsSpace (c : Char) : Bool :=
  c = ' ' || c = '\t' || c = '\n' || c = '\r'

/-- Decimal digit test. -/
def isDigitChar (c : Char) : Bool := '0' ≤ c && c ≤ '9'

/-- Hexadecimal digit test. -/
def isHexChar (c : Char) : Bool :=
  isDigitChar c || ('a' ≤ c && c ≤ 'f') || ('A' ≤ c && c ≤ 'F')

/-- Numeric value of a decimal digit character. -/
def digitVal (c : Char) : Nat := c.toNat - '0'.toNat

/-- Numeric value of a hexadecimal digit character. -/
def hexVal (c : Char) : Nat :=
  if isDigitChar c then digitVal c
  else if 'a' ≤ c && c ≤ 'f' then c.toNat - 'a'.toNat + 10
  else c.toNat - 'A'.toNat + 10

/-- Value of a run of decimal digits. -/
def digitsVal (ds : List Char) : Nat :=
  ds.foldl (fun acc c => acc * 10 + digitVal c) 0

/-- Value of a run of hexadecimal digits. -/
def hexDigitsVal (ds : List Char) : Nat :=
  ds.foldl (fun acc c => acc * 16 + hexVal c) 0

/-- Model of JavaScript parseInt with no radix argument: skip whitespace,
optional sign, optional 0x hex prefix, then the longest run of digits;
NaN (here none) when that run is empty.  Results are exact integers;
the JavaScript double result agrees below 2 to the 53rd. -/
def jsParseInt (s : String) : Option Int :=
  let cs := s.data.dropWhile jsIsSpace
  let sign : Int := if cs.head? = some '-' then -1 else 1
  let cs' := if cs.head? = some '-' || cs.head? = some '+' then cs.drop 1 else cs
  if cs'.head? = some '0' &&
      ((cs'.drop 1).head? = some 'x' || (cs'.drop 1).head? = some 'X') then
    let ds := (cs'.drop 2).takeWhile isHexChar
    if ds.isEmpty then none else some (sign * hexDigitsVal ds)
  else
    let ds := cs'.takeWhile isDigitChar
    if ds.isEmpty then none else some (sign * digitsVal ds)

/-- Mantissa-and-exponent accumulator for decimal parsing. -/
def decToRat (intPart fracPart : List Char) (exp : Int) : ℚ :=
  (digitsVal intPart + (digitsVal fracPart : ℚ) / 10 ^ fracPart.length) * 10 ^ exp

/-- Parse an exponent suffix such as e10 or E-3; returns the exponent and the
remaining characters, defaulting to exponent zero when absent or malformed. -/
def parseExpSuffix (cs : List Char) : Int × List Char :=
  match cs with
  | 'e' :: rest | 'E' :: rest =>
    let signed : Int × List Char :=
      match rest with
      | '-' :: r => (-1, r)
      | '+' :: r => (1, r)
      | _ => (1, rest)
    match signed with
    | (sign, r) =>
      let ds := r.takeWhile isDigitChar
      if ds.isEmpty then (0, cs) else (sign * digitsVal ds, r.drop ds.length)
  | _ => (0, cs)

/-- Model of JavaScript parseFloat: skip whitespace, optional sign, longest
prefix of the form digits [. digits] [exponent]; NaN (none) when no digit is
found.  The Infinity literal and IEEE rounding of long literals are outside
the scope of the states studied here and are not modelled. -/
def jsParseFloat (s : String) : Option ℚ :=
  let cs := s.data.dropWhile jsIsSpace
  let sign : ℚ := if cs.head? = some '-' then -1 else 1
  let cs' := if cs.head? = some '-' || cs.head? = some '+' then cs.drop 1 else cs
  let intPart := cs'.takeWhile isDigitChar
  let afterInt := cs'.drop intPart.length
  let fracPart :=
    match afterInt with
    | '.' :: rest => rest.takeWhile isDigitChar
    | _ => []
  let afterFrac :=
    match afterInt with
    | '.' :: rest => rest.drop fracPart.length
    | _ => afterInt
  if intPart.isEmpty && fracPart.isEmpty then none
  else some (sign * decToRat intPart fracPart (parseExpSuffix afterFrac).1)

/-- Model of the JavaScript Number conversion applied to a string: the whole
string (modulo surrounding whitespace) must be a numeric literal; the empty
string converts to 0; anything else is NaN (none).  Hexadecimal literals and
the Infinity literal are not modelled (no state studied here produces them). -/
def jsNumberOfString (s : String) : Option ℚ :=
  let cs := s.data.dropWhile jsIsSpace
  if cs.isEmpty then some 0
  else
    let sign : ℚ := if cs.head? = some '-' then -1 else 1
    let cs' := if cs.head? = some '-' || cs.head? = some '+' then cs.drop 1 else cs
    let intPart := cs'.takeWhile isDigitChar
    let afterInt := cs'.drop intPart.length
    let fracPart :=
      match afterInt with
      | '.' :: rest => rest.takeWhile isDigitChar
      | _ => []
    let afterFrac :=
      match afterInt with
      | '.' :: rest => rest.drop fracPart.length
      | _ => afterInt
    if intPart.isEmpty && fracPart.isEmpty then none
    else
      let exprest := parseExpSuffix afterFrac
      if exprest.2.dropWhile jsIsSpace |>.isEmpty then
        some (sign * decToRat intPart fracPart exprest.1)
      else none

/-- Smallest power of ten that clears the denominator, when one exists below
the search bound; every rational manipulated by the embedded handlers is a
terminating decimal, for which this succeeds. -/
def pow10Exp (den : Nat) : Option Nat :=
  (List.range 40).find? (fun k => 10 ^ k % den = 0)

/-- Left-pad a digit string with zeros up to the given length. -/
def padZeros (s : String) (n : Nat) : String :=
  if s.length < n then String.mk (List.replicate (n - s.length) '0') ++ s else s

/-- Character of a digit value below ten. -/
def digitChar (n : Nat) : Char := Char.ofNat ('0'.toNat + n)

/-- Big-endian decimal digits of a natural number, fuelled so that the
definition is structurally recursive (any fuel above the number itself is
ample, since the number shrinks tenfold each step). -/
def natDecimalF : Nat → Nat → List Char
  | 0, _ => []
  | fuel + 1, n =>
    if n < 10 then [digitChar n]
    else natDecimalF fuel (n / 10) ++ [digitChar (n % 10)]

/-- Big-endian decimal digits of a natural number, the JavaScript
number-to-string conversion for the nonnegative integers used in wire
encodings. -/
def natDecimal (n : Nat) : List Char := natDecimalF (n + 1) n

/-- Decimal rendering of a natural number. -/
def natToString (n : Nat) : String := String.mk (natDecimal n)

/-- Decimal rendering of an integer, the JavaScript toString of an integral
number. -/
def intToString (i : Int) : String :=
  if i < 0 then "-" ++ natToString i.natAbs else natToString i.toNat

/-- Model of the JavaScript number-to-string conversion, exact on terminating
decimals (the only values the embedded handlers render). -/
def jsNumToString (q : ℚ) : String :=
  let sign := if q < 0 then "-" else ""
  let a := |q|
  match pow10Exp a.den with
  | none => "NaN"
  | some k =>
    if k = 0 then sign ++ natToString a.num.toNat
    else
      let scaled := ((a * 10 ^ k : ℚ)).num.toNat
      let digits := padZeros (natToString scaled) (k + 1)
      let point := digits.length - k
      sign ++ (digits.take point) ++ "." ++ (digits.drop point)

/-- ASCII uppercase conversion, modelling String.prototype.toUpperCase on the
ASCII data handled here. -/
def jsToUpper (s : String) : String :=
  String.mk (s.data.map Char.toUpper)

/-! ## The key-value store

Entries mirror the KeyValueEntry interface of commands.ts: a dynamically
typed value, an optional expiry timestamp and an optional type tag (entries
created by SET carry no tag).  JavaScript Maps preserve insertion order, so
they are modelled by association lists where set replaces in place or
appends. -/

/-- Type tags from the KeyValueEntry interface. -/
inductive TypTag
  | str | list | stream | hash | setT | zset
deriving DecidableEq, Repr

/-- A stream entry: id plus insertion-ordered field map. -/
structure StreamEnt where
  id : String
  fields : List (String × String)
deriving DecidableEq, Repr

/-- An element of a JavaScript array used as a list value.  Lists normally
hold strings; handleXAdd can push a stream-entry object onto one because it
performs no type check. -/
inductive LElem
  | lstr (s : String)
  | lobj (e : StreamEnt)
deriving DecidableEq, Repr

/-- The dynamic value of a store entry. -/
inductive Val
  | vstr (s : String)
  | vlist (xs : List LElem)
  | vstream (es : List StreamEnt)
  | vzset (m : List (String × ℚ))
deriving DecidableEq, Repr

/-- A store entry, after KeyValueEntry of commands.ts. -/
structure KeyValueEntry where
  value : Val
  expiry : Option Int := none
  typ : Option TypTag := none
deriving DecidableEq, Repr

/-- The key-value store, a JavaScript Map in insertion order. -/
def Store := List (String × KeyValueEntry)

instance : DecidableEq Store := by unfold Store; infer_instance

/-- Map.get: first (unique) binding for the key. -/
def kvGet (store : Store) (k : String) : Option KeyValueEntry :=
  (store.find? (fun p => p.1 = k)).map Prod.snd

/-- Map.set: replace the binding in place, or append a new one. -/
def kvSet (store : Store) (k : String) (e : KeyValueEntry) : Store :=
  match store with
  | [] => [(k, e)]
  | (k', e') :: rest =>
    if k' = k then (k, e) :: rest else (k', e') :: kvSet rest k e

/-- Map.delete: remove the binding for the key. -/
def kvDelete (store : Store) (k : String) : Store :=
  store.filter (fun p => ¬ p.1 = k)

/-- Map.has. -/
def kvHas (store : Store) (k : String) : Bool :=
  (kvGet store k).isSome

/-- String conversion JavaScript applies to a dynamic value (template
literals, parseInt coercion): strings pass through, arrays join their
elements with commas, objects and Maps stringify to bracketed tags. -/
def jsStringifyVal : Val → String
  | .vstr s => s
  | .vlist xs =>
    String.intercalate "," (xs.map (fun | .lstr s => s | .lobj _ => "[object Object]"))
  | .vstream es => String.intercalate "," (es.map (fun _ => "[object Object]"))
  | .vzset _ => "[object Map]"

/-! ## RESP encoding helpers (parser.ts) -/

/-- The CRLF line terminator. -/
def CRLF : String := "\r\n"

/-- encodeSimpleString of parser.ts. -/
def encodeSimpleString (value : String) : String := "+" ++ value ++ CRLF

/-- encodeError of parser.ts. -/
def encodeError (message : String) : String := "-" ++ message ++ CRLF

/-- encodeInteger of parser.ts (the template also accepts the strings some
callers pass; those are decimal renderings of the same number). -/
def encodeInteger (value : Int) : String := ":" ++ intToString value ++ CRLF

/-- encodeBulkString of parser.ts; none is the null bulk string. -/
def encodeBulkString : Option String → String
  | none => "$-1" ++ CRLF
  | some value => "$" ++ natToString value.length ++ CRLF ++ value ++ CRLF

/-- encodeArray of parser.ts: an array of bulk strings (none encodes the
null bulk). -/
def encodeArray (elements : List (Option String)) : String :=
  elements.foldl (fun acc e => acc ++ encodeBulkString e)
    ("*" ++ natToString elements.length ++ CRLF)

/-! ## TYPE (commands.ts handleType) -/

/-- Truthiness test JavaScript applies to the optional expiry field followed
by the expiry comparison: an absent expiry and the (unreachable) timestamp
zero are falsy. -/
def expiryActive (expiry : Option Int) (now : Int) : Bool :=
  match expiry with
  | none => false
  | some t => (¬ t = 0) && now > t

/-- handleType of commands.ts: none when the key is absent, stream when the
type tag is stream, and string in every other case. -/
def handleType (args : List String) (store : Store) : String :=
  if ¬ args.length = 1 then
    encodeError "ERR wrong number of arguments for 'type' command"
  else
    let key := args.headD ""
    match kvGet store key with
    | none => encodeSimpleString "none"
    | some entry =>
      if entry.typ = some .stream then encodeSimpleString "stream"
      else encodeSimpleString "string"

/-! ## INCR (string-commands.ts handleIncr) -/

/-- handleIncr of string-commands.ts, parameterized by the current clock.
Absent or expired keys become the string 1; otherwise the stored value is
parsed with parseInt (accepting any leading integer literal) and the
incremented value is stored back as a string.  Arithmetic is exact here;
JavaScript doubles agree for values below 2 to the 53rd. -/
def handleIncr (now : Int) (args : List String) (store : Store) :
    String × Store :=
  if ¬ args.length = 1 then
    (encodeError "ERR wrong number of arguments for 'incr' command", store)
  else
    let key := args.headD ""
    match kvGet store key with
    | none =>
      (encodeInteger 1, kvSet store key { value := .vstr "1" })
    | some entry =>
      if expiryActive entry.expiry now then
        (encodeInteger 1, kvSet (kvDelete store key) key { value := .vstr "1" })
      else
        match jsParseInt (jsStringifyVal entry.value) with
        | none =>
          (encodeError "ERR value is not an integer or out of range", store)
        | some currentValue =>
          let newValue := currentValue + 1
          (encodeInteger newValue,
            kvSet store key { entry with value := .vstr (intToString newValue) })

/-! ## Streams (stream-commands.ts)

JavaScript exceptions (property access on undefined, calling a missing
method) are modelled by an error channel; the exact runtime message text is
not part of the model. -/

/-- A thrown JavaScript runtime error. -/
inductive JsErr
  | typeError (msg : String)
deriving DecidableEq, Repr

/-- NaN-aware equality for parsed JavaScript numbers: a comparison with NaN
(none) is false. -/
def jsEq (a b : Option ℚ) : Bool :=
  match a, b with
  | some x, some y => x = y
  | _, _ => false

/-- NaN-aware less-or-equal. -/
def jsLe (a b : Option ℚ) : Bool :=
  match a, b with
  | some x, some y => x ≤ y
  | _, _ => false

/-- NaN-aware strict less-than. -/
def jsLt (a b : Option ℚ) : Bool :=
  match a, b with
  | some x, some y => x < y
  | _, _ => false

/-- NaN-aware strict greater-than. -/
def jsGt (a b : Option ℚ) : Bool :=
  match a, b with
  | some x, some y => x > y
  | _, _ => false

/-- The accumulator pass of the JavaScript String.prototype.split with a
one-character separator. -/
def jsSplitAux (sep : Char) : List Char → List Char → List String
  | [], acc => [String.mk acc.reverse]
  | c :: rest, acc =>
    if c = sep then String.mk acc.reverse :: jsSplitAux sep rest []
    else jsSplitAux sep rest (c :: acc)

/-- JavaScript String.prototype.split with a one-character separator; the
empty string splits to a single empty piece. -/
def jsSplit (s : String) (sep : Char) : List String := jsSplitAux sep s.data []

/-- Splitting a stream id at dashes and converting the first two pieces with
Number, as id.split and map Number with destructuring do; a missing piece
behaves like NaN in every use below. -/
def parseIdPair (id : String) : Option ℚ × Option ℚ :=
  let parts := jsSplit id '-'
  ((parts.head?).bind jsNumberOfString, (parts[1]?).bind jsNumberOfString)

/-- Reading the id of the last element of a dynamic value, as
value[value.length - 1].id does: works on stream arrays (and on stream
entries pushed onto plain arrays); anything else throws. -/
def lastIdOfVal : Val → Except JsErr String
  | .vstream es =>
    match es.getLast? with
    | some e => .ok e.id
    | none => .error (.typeError "cannot read properties of undefined")
  | .vlist xs =>
    match xs.getLast? with
    | some (.lobj e) => .ok e.id
    | _ => .error (.typeError "cannot read properties of undefined")
  | _ => .error (.typeError "cannot read properties of undefined")

/-- idValidation of stream-commands.ts, given the last id already read from
the entry: empty string when the incoming id is acceptable, otherwise the
encoded error reply. -/
def idValidationMsg (lastId incomingId : String) : String :=
  let lastPair := parseIdPair lastId
  let newPair := parseIdPair incomingId
  if jsEq newPair.1 (some 0) && jsEq newPair.2 (some 0) then
    encodeError "ERR The ID specified in XADD must be greater than 0-0"
  else if jsEq newPair.1 lastPair.1 && jsLe newPair.2 lastPair.2 then
    encodeError
      "ERR The ID specified in XADD is equal or smaller than the target stream top item"
  else if jsLt newPair.1 lastPair.1 || (newPair.1).isNone || (newPair.2).isNone then
    encodeError
      "ERR The ID specified in XADD is equal or smaller than the target stream top item"
  else ""

/-- idValidation of stream-commands.ts on a whole entry (reading the last
element can throw on non-stream values). -/
def idValidation (entry : KeyValueEntry) (incomingId : String) :
    Except JsErr String := do
  let lastId ← lastIdOfVal entry.value
  return idValidationMsg lastId incomingId

/-- The length means the JavaScript value.length comparison with 0 used by
handleXAdd: string and array lengths, undefined (never positive) for Maps. -/
def jsLengthPos : Val → Bool
  | .vstr s => s.length > 0
  | .vlist xs => xs.length > 0
  | .vstream es => es.length > 0
  | .vzset _ => false

/-- The value.length strict-equality-with-0 test of generateSequenceNumber:
undefined (Maps) is not equal to 0. -/
def jsLengthEqZero : Val → Bool
  | .vstr s => s.length = 0
  | .vlist xs => xs.length = 0
  | .vstream es => es.length = 0
  | .vzset _ => false

/-- One iteration step candidates of generateSequenceNumber: the parsed
(ms, seq) of an iterated element, throwing where the source would (iterating
strings or plain-string array elements and reading .id). -/
def iterIdPairs : Val → Except JsErr (List (Option ℚ × Option ℚ))
  | .vstream es => .ok (es.map (fun e => parseIdPair e.id))
  | .vlist xs =>
    xs.foldr (fun x acc => match x with
      | .lobj e => do return (parseIdPair e.id) :: (← acc)
      | .lstr _ => .error (.typeError "cannot read properties of undefined"))
      (.ok [])
  | .vstr s =>
    if s.length = 0 then .ok []
    else .error (.typeError "cannot read properties of undefined")
  | .vzset m =>
    if m.length = 0 then .ok []
    else .error (.typeError "cannot read properties of undefined")

/-- generateSequenceNumber of stream-commands.ts: 1 when the stream is empty
and the time part is 0, otherwise one past the highest sequence recorded for
that time part (0, or 1 at time 0, when there is none). -/
def generateSequenceNumber (value : Val) (timeMs : ℚ) : Except JsErr ℚ :=
  if jsLengthEqZero value then
    .ok (if timeMs = 0 then 1 else 0)
  else do
    let pairs ← iterIdPairs value
    let maxSeq := pairs.foldl
      (fun maxSeq p =>
        if jsEq p.1 (some timeMs) && jsGt p.2 (some maxSeq) then
          match p.2 with
          | some q => q
          | none => maxSeq
        else maxSeq)
      (-1 : ℚ)
    return if maxSeq = -1 then (if timeMs = 0 then 1 else 0) else maxSeq + 1

/-- Pairing of the field-value argument tail. -/
def chunk2 : List String → List (String × String)
  | a :: b :: rest => (a, b) :: chunk2 rest
  | _ => []

/-- Insertion-ordered Map.set on an association list. -/
def assocSet (m : List (String × String)) (k v : String) :
    List (String × String) :=
  match m with
  | [] => [(k, v)]
  | (k', v') :: rest =>
    if k' = k then (k, v) :: rest else (k', v') :: assocSet rest k v

/-- Building the field Map of handleXAdd from the argument tail. -/
def buildFieldMap (fieldsValues : List String) : List (String × String) :=
  (chunk2 fieldsValues).foldl (fun m p => assocSet m p.1 p.2) []

/-- Array.push of a new stream entry onto a dynamic value: appends to stream
arrays and to plain arrays (which then hold a stream-entry object); strings
and Maps have no push method and throw. -/
def valPush (v : Val) (e : StreamEnt) : Except JsErr Val :=
  match v with
  | .vstream es => .ok (.vstream (es ++ [e]))
  | .vlist xs => .ok (.vlist (xs ++ [.lobj e]))
  | _ => .error (.typeError "push is not a function")

/-- handleXAdd of stream-commands.ts, parameterized by the Date.now clock.
Creates the stream when the key is absent, resolves automatic ids, validates
an explicit id only when the value already has positive length, then pushes
the new entry.  No type check is performed anywhere. -/
def handleXAdd (now : Int) (args : List String) (store : Store) :
    Except JsErr (String × Store) :=
  if args.length < 4 || ¬ args.length % 2 = 0 then
    .ok (encodeError "ERR wrong number of arguments for 'xadd' command", store)
  else
    let key := args.headD ""
    let id := (args.drop 1).headD ""
    let fieldsValues := args.drop 2
    let store1 :=
      if ¬ kvHas store key then
        kvSet store key { value := .vstream [], typ := some .stream }
      else store
    match kvGet store1 key with
    | none => .error (.typeError "unreachable: entry was just ensured")
    | some streamEntry =>
      let parts := jsSplit id '-'
      let timeStr := parts.headD ""
      let seqStr := parts[1]?
      let isAutoSeq := (¬ timeStr = "*") && seqStr = some "*"
      let isFullyAuto := timeStr = "*"
      let finalIdE : Except JsErr (Option String × String) :=
        -- first component: a final id to push; second: an early reply
        if isFullyAuto then do
          let seqNum ← generateSequenceNumber streamEntry.value (now : ℚ)
          return (some (intToString now ++ "-" ++ jsNumToString seqNum), "")
        else if isAutoSeq then
          match jsParseInt timeStr with
          | none => .ok (none, encodeError "ERR Invalid stream ID specified as argument")
          | some timeMs => do
            let earlyErr ←
              if jsLengthPos streamEntry.value then do
                let lastId ← lastIdOfVal streamEntry.value
                let lastMs := (parseIdPair lastId).1
                pure (if jsLt (some (timeMs : ℚ)) lastMs then
                  encodeError
                    "ERR The ID specified in XADD is equal or smaller than the target stream top item"
                else if timeMs = 0 then
                  encodeError "ERR The ID specified in XADD must be greater than 0-0"
                else "")
              else
                pure ""
            if ¬ earlyErr = "" then
              return (none, earlyErr)
            else do
              let seqNum ← generateSequenceNumber streamEntry.value (timeMs : ℚ)
              return (some (intToString timeMs ++ "-" ++ jsNumToString seqNum), "")
        else do
          if jsLengthPos streamEntry.value then
            let msg ← idValidation streamEntry id
            if ¬ msg = "" then
              return (none, msg)
            else
              return (some id, "")
          else
            return (some id, "")
      match finalIdE with
      | .error e => .error e
      | .ok (none, earlyReply) => .ok (earlyReply, store1)
      | .ok (some finalId, _) => do
        let fieldMap := buildFieldMap fieldsValues
        let newEntry : StreamEnt := { id := finalId, fields := fieldMap }
        let pushed ← valPush streamEntry.value newEntry
        return (encodeBulkString (some finalId),
          kvSet store1 key { streamEntry with value := pushed })

/-! ## Sorted sets (sortedset-commands.ts) -/

/-- Code-point lexicographic comparison of character lists. -/
def listLexLt : List Char → List Char → Bool
  | [], [] => false
  | [], _ :: _ => true
  | _ :: _, [] => false
  | a :: as, b :: bs =>
    if a.toNat < b.toNat then true
    else if b.toNat < a.toNat then false
    else listLexLt as bs

/-- Model of String.prototype.localeCompare, faithful for the code-unit
ordered strings (for example lowercase alphanumerics) that the theorems
below quantify over; the ICU collation of mixed-case data is outside the
model. -/
def localeCompareInt (a b : String) : Int :=
  if listLexLt a.data b.data then -1 else if listLexLt b.data a.data then 1 else 0

/-- The comparator of rebuildSortedOrder as a sorting relation: score
ascending, then member by localeCompare. -/
def zsetLe (a b : String × ℚ) : Bool :=
  if a.2 = b.2 then localeCompareInt a.1 b.1 ≤ 0 else a.2 < b.2

/-- Map.has on a sorted-set association list. -/
def zsetHas (m : List (String × ℚ)) (member : String) : Bool :=
  (m.find? (fun p => p.1 = member)).isSome

/-- Map.get on a sorted-set association list. -/
def zsetGet (m : List (String × ℚ)) (member : String) : Option ℚ :=
  (m.find? (fun p => p.1 = member)).map Prod.snd

/-- Insertion-ordered Map.set on a sorted-set association list. -/
def zsetSet (m : List (String × ℚ)) (member : String) (score : ℚ) :
    List (String × ℚ) :=
  match m with
  | [] => [(member, score)]
  | (k', v') :: rest =>
    if k' = member then (member, score) :: rest
    else (k', v') :: zsetSet rest member score

/-- rebuildSortedOrder of sortedset-commands.ts: re-sort the map entries by
(score, member) and rebuild in that order.  Members are unique, so the
comparator is total and stability is immaterial. -/
def rebuildSortedOrder (m : List (String × ℚ)) : List (String × ℚ) :=
  m.mergeSort zsetLe

/-- getSortedSet of sortedset-commands.ts: create an empty zset-tagged entry
for an absent key; throw WRONGTYPE when a type tag is present and differs
from zset; otherwise hand back the entry unchecked. -/
def getSortedSet (store : Store) (key : String) :
    Except String (KeyValueEntry × Store) :=
  match kvGet store key with
  | none =>
    let e : KeyValueEntry := { value := .vzset [], typ := some .zset }
    .ok (e, kvSet store key e)
  | some entry =>
    if (entry.typ).isSome && ¬ entry.typ = some .zset then
      .error "WRONGTYPE Operation against a key holding the wrong kind of value"
    else .ok (entry, store)

/-- Runtime message for calling a Map method on a non-Map value (the exact
JavaScript text is not modelled). -/
def zsetTypeErrorMsg : String := "sortedSet.has is not a function"

/-- The score-member loop of handleZAdd: returns the final map and count of
new members, or, on an unparseable score, the error reply together with the
partial map already written through the live Map reference. -/
def zaddLoop (pairs : List (String × String)) (m : List (String × ℚ))
    (added : Nat) :
    Except (String × List (String × ℚ)) (List (String × ℚ) × Nat) :=
  match pairs with
  | [] => .ok (m, added)
  | (scoreStr, member) :: rest =>
    match jsParseFloat scoreStr with
    | none => .error (encodeError "ERR value is not a valid float", m)
    | some score =>
      let wasNew := ¬ zsetHas m member
      zaddLoop rest (zsetSet m member score) (if wasNew then added + 1 else added)

/-- handleZAdd of sortedset-commands.ts.  A WRONGTYPE throw from getSortedSet
is caught and returned as the error reply; an unparseable score aborts the
loop after the earlier pairs were already inserted, without re-sorting; a
completed loop re-sorts and reports the count of newly added members. -/
def handleZAdd (args : List String) (store : Store) : String × Store :=
  if args.length < 3 || args.length % 2 = 0 then
    (encodeError "ERR wrong number of arguments for 'zadd' command", store)
  else
    let key := args.headD ""
    match getSortedSet store key with
    | .error msg => (encodeError msg, store)
    | .ok (entry, store1) =>
      match entry.value with
      | .vzset m =>
        match zaddLoop (chunk2 (args.drop 1)) m 0 with
        | .error (reply, partialMap) =>
          (reply, kvSet store1 key { entry with value := .vzset partialMap })
        | .ok (final, added) =>
          (encodeInteger added,
            kvSet store1 key { entry with value := .vzset (rebuildSortedOrder final) })
      | _ =>
        -- the value is not a Map: sortedSet.has throws on the first pair,
        -- after that pair's score was parsed; the catch turns it into a reply
        match chunk2 (args.drop 1) with
        | [] => (encodeError zsetTypeErrorMsg, store1)
        | (scoreStr, _) :: _ =>
          if (jsParseFloat scoreStr).isNone then
            (encodeError "ERR value is not a valid float", store1)
          else (encodeError zsetTypeErrorMsg, store1)

/-- handleZRank of sortedset-commands.ts: null bulk for an absent key or
member, WRONGTYPE for a tagged non-zset entry, otherwise the position of the
member in the map's insertion order (which ZADD keeps sorted). -/
def handleZRank (args : List String) (store : Store) : Except JsErr String :=
  if ¬ args.length = 2 then
    .ok (encodeError "ERR wrong number of arguments for 'zrank' command")
  else
    let key := args.headD ""
    let member := (args.drop 1).headD ""
    match kvGet store key with
    | none => .ok (encodeBulkString none)
    | some entry =>
      if (entry.typ).isSome && ¬ entry.typ = some .zset then
        .ok (encodeError "WRONGTYPE Operation against a key holding the wrong kind of value")
      else
        match entry.value with
        | .vzset m =>
          if ¬ zsetHas m member then .ok (encodeBulkString none)
          else
            match m.findIdx? (fun p => p.1 = member) with
            | some rank => .ok (encodeInteger rank)
            | none => .ok (encodeBulkString none)
        | _ => .error (.typeError zsetTypeErrorMsg)

/-- handleZRange of sortedset-commands.ts: inclusive indices with negative
offsets from the tail, clamped; tagged non-zset entries get WRONGTYPE;
untagged non-Map values throw at the keys() call. -/
def handleZRange (args : List String) (store : Store) : Except JsErr String :=
  if args.length < 3 || args.length > 4 then
    .ok (encodeError "ERR wrong number of arguments for 'zrange' command")
  else
    let key := args.headD ""
    let startO := jsParseInt ((args.drop 1).headD "")
    let stopO := jsParseInt ((args.drop 2).headD "")
    let withScores := args.length = 4 && jsToUpper ((args.drop 3).headD "") = "WITHSCORES"
    match startO, stopO with
    | some start, some stop =>
      match kvGet store key with
      | none => .ok (encodeArray [])
      | some entry =>
        if (entry.typ).isSome && ¬ entry.typ = some .zset then
          .ok (encodeError "WRONGTYPE Operation against a key holding the wrong kind of value")
        else
          match entry.value with
          | .vzset m =>
            let members := m.map Prod.fst
            let cardinality : Int := members.length
            let startIdx := if start < 0 then max 0 (cardinality + start) else start
            let stopIdx0 := if stop < 0 then max (-1) (cardinality + stop) else stop
            if startIdx ≥ cardinality then .ok (encodeArray [])
            else
              let stopIdx := if stopIdx0 ≥ cardinality then cardinality - 1 else stopIdx0
              if startIdx > stopIdx then .ok (encodeArray [])
              else
                let rangeMembers :=
                  (members.drop startIdx.toNat).take (stopIdx + 1 - startIdx).toNat
                if withScores then
                  .ok (encodeArray ((rangeMembers.map
                    (fun mem => [some mem, (zsetGet m mem).map jsNumToString])).flatten))
                else
                  .ok (encodeArray (rangeMembers.map some))
          | _ => .error (.typeError zsetTypeErrorMsg)
    | _, _ =>
      .ok (encodeError "ERR value is not an integer or out of range")

/-! ## The RESP codec (parser.ts): command encoding, byte accounting,
and the streaming parse -/

/-- encodeRESPCommand of parser.ts: the array-of-bulk-strings wire form of a
command and its arguments. -/
def encodeRESPCommand (command : String) (args : List String) : String :=
  let parts := command :: args
  parts.foldl
    (fun resp part => resp ++ "$" ++ natToString part.length ++ CRLF ++ part ++ CRLF)
    ("*" ++ natToString parts.length ++ CRLF)

/-- calculateRESPCommandBytes of parser.ts: header bytes plus per-part
bulk-string framing bytes. -/
def calculateRESPCommandBytes (command : String) (args : List String) : Nat :=
  let parts := command :: args
  parts.foldl
    (fun totalBytes part =>
      totalBytes + (1 + (natToString part.length).length + 2 + part.length + 2))
    (1 + (natToString parts.length).length + 2)

/-- calculateCommandBytes of replication-manager.ts, textually the same
computation as calculateRESPCommandBytes. -/
def calculateCommandBytes (command : String) (args : List String) : Nat :=
  let parts := command :: args
  parts.foldl
    (fun totalBytes part =>
      totalBytes + (1 + (natToString part.length).length + 2 + part.length + 2))
    (1 + (natToString parts.length).length + 2)

/-- A parsed RESP value (RESPValue of parser.ts); rnull stands for the
JavaScript null used both for null bulks/arrays and for running out of
buffer, which the source handles identically at every use site. -/
inductive JsResp
  | rstr (s : String)
  | rint (n : Int)
  | rnull
  | rarr (xs : List JsResp)
deriving Repr

/-- findCRLF of the RESP parse: index of the first CRLF pair, none (a thrown
error in the source) when absent. -/
def findCRLF : List Char → Option Nat
  | [] => none
  | c :: rest =>
    if c = '\r' && rest.head? = some '\n' then some 0
    else (findCRLF rest).map (· + 1)

mutual

/-- The parse method of the RESPParser class, on the unconsumed suffix of
the buffer, fuelled (the source recurses on untrusted input; every theorem
supplies ample fuel).  Returns the value and the remaining suffix; none
models both a thrown framing error and the garbage-length paths the source
leaves to undefined arithmetic. -/
def parseValue : Nat → List Char → Option (JsResp × List Char)
  | 0, _ => none
  | _ + 1, [] => some (.rnull, [])
  | fuel + 1, c :: rest =>
    if c = '+' || c = '-' then
      match findCRLF rest with
      | none => none
      | some i => some (.rstr (String.mk (rest.take i)), rest.drop (i + 2))
    else if c = ':' then
      match findCRLF rest with
      | none => none
      | some i =>
        match jsParseInt (String.mk (rest.take i)) with
        | none => none
        | some n => some (.rint n, rest.drop (i + 2))
    else if c = '$' then
      match findCRLF rest with
      | none => none
      | some i =>
        match jsParseInt (String.mk (rest.take i)) with
        | none => none
        | some len =>
          if len = -1 then some (.rnull, rest.drop (i + 2))
          else
            let body := rest.drop (i + 2)
            some (.rstr (String.mk (body.take len.toNat)), body.drop (len.toNat + 2))
    else if c = '*' then
      match findCRLF rest with
      | none => none
      | some i =>
        match jsParseInt (String.mk (rest.take i)) with
        | none => none
        | some len =>
          if len = -1 then some (.rnull, rest.drop (i + 2))
          else
            match parseElems fuel len.toNat (rest.drop (i + 2)) with
            | none => none
            | some (xs, remaining) => some (.rarr xs, remaining)
    else none
termination_by fuel _ => (fuel, 0)

/-- The element loop of parseArray: a null element (including running out of
buffer) is the thrown error of the source. -/
def parseElems : Nat → Nat → List Char → Option (List JsResp × List Char)
  | _, 0, cs => some ([], cs)
  | fuel, n + 1, cs =>
    match parseValue fuel cs with
    | none => none
    | some (.rnull, _) => none
    | some (v, cs') =>
      match parseElems fuel n cs' with
      | none => none
      | some (vs, cs'') => some (v :: vs, cs'')
termination_by fuel n _ => (fuel, n + 1)

end

/-- String conversion of a parsed RESP value, as the String() coercion in
parseRESPCommand. -/
def jsStringOfResp : JsResp → String
  | .rstr s => s
  | .rint n => intToString n
  | .rnull => "null"
  | .rarr xs => String.intercalate "," (xs.attach.map (fun x => jsStringOfResp x.1))
decreasing_by
  have := List.sizeOf_lt_of_mem x.2
  simp_wf
  omega

/-- parseRESPCommand of parser.ts: parse one frame from the front of the
buffer; only a nonempty array yields a command, whose name is uppercased;
anything else (including an incomplete frame) is null. -/
def parseRESPCommand (data : List Char) : Option (String × List String) :=
  match parseValue (data.length + 1) data with
  | some (.rarr xs, _) =>
    if xs.length = 0 then none
    else some (jsToUpper (jsStringOfResp (xs.headD .rnull)),
      (xs.drop 1).map jsStringOfResp)
  | _ => none

/-! ## Replica-side ingestion (replication-manager.ts handleBuffer) -/

/-- Replica-side ingestion state: the pending byte buffer and the
applied-offset counter replicationOffset. -/
structure ReplicaState where
  buffer : List Char
  replicationOffset : Nat
deriving DecidableEq, Repr

/-- Observable actions of handleBuffer: an ACK written back to the primary
link, or a command forwarded to the server itself for application. -/
inductive ReplicaEvent
  | ackToMaster (reply : String)
  | forwardToSelf (wire : String)
deriving DecidableEq, Repr

/-- The REPLCONF GETACK detection test of the handleBuffer loop (the source
uppercases the already-uppercased parsed command again). -/
def getAckDetected (command : String) (args : List String) : Bool :=
  jsToUpper command = "REPLCONF" && decide (args.length ≥ 2)
    && jsToUpper (args.headD "") = "GETACK"

/-- The while loop of handleBuffer: parse a frame, advance the buffer by the
computed byte count, answer GETACK with the offset recorded before counting
the GETACK itself, count every command's bytes into the offset, and forward
non-GETACK commands. -/
def processLoop (st : ReplicaState) : ReplicaState × List ReplicaEvent :=
  if hb : st.buffer = [] then (st, [])
  else
    match parseRESPCommand st.buffer with
    | none => (st, [])
    | some (command, args) =>
      let commandBytes := calculateCommandBytes command args
      let buffer' := st.buffer.drop commandBytes
      if getAckDetected command args then
        let currentOffset := st.replicationOffset
        let ackResponse :=
          encodeArray [some "REPLCONF", some "ACK", some (natToString currentOffset)]
        let next := processLoop
          { buffer := buffer', replicationOffset := st.replicationOffset + commandBytes }
        (next.1, .ackToMaster ackResponse :: next.2)
      else
        let next := processLoop
          { buffer := buffer', replicationOffset := st.replicationOffset + commandBytes }
        (next.1, .forwardToSelf (encodeRESPCommand command args) :: next.2)
termination_by st.buffer.length
decreasing_by
all_goals
  simp only [List.length_drop]
  have hpos : 1 ≤ calculateCommandBytes command args := by
    have : ∀ (l : List String) (acc : Nat),
        acc ≤ l.foldl
          (fun t p => t + (1 + (natToString p.length).length + 2 + p.length + 2)) acc := by
      intro l
      induction l with
      | nil => intro acc; exact Nat.le_refl acc
      | cons x xs ih => intro acc; exact Nat.le_trans (Nat.le_add_right _ _) (ih _)
    calc 1 ≤ 1 + (natToString (command :: args).length).length + 2 := by omega
    _ ≤ _ := this _ _
  have hb' : 0 < st.buffer.length := List.length_pos.mpr hb
  omega

/-- handleBuffer of replication-manager.ts: skip a leading raw RDB payload
frame when present and complete (returning to wait otherwise), then run the
command loop. -/
def handleBuffer (st : ReplicaState) : ReplicaState × List ReplicaEvent :=
  match st.buffer with
  | '$' :: _ =>
    match findCRLF st.buffer with
    | none => (st, [])
    | some rdbLengthEndIndex =>
      let rdbLengthStr := String.mk ((st.buffer.drop 1).take (rdbLengthEndIndex - 1))
      match jsParseInt rdbLengthStr with
      | none => processLoop st
      | some rdbLength =>
        let rdbDataEnd : Int := (rdbLengthEndIndex : Int) + 2 + rdbLength
        if (st.buffer.length : Int) < rdbDataEnd then (st, [])
        else processLoop { st with buffer := st.buffer.drop rdbDataEnd.toNat }
  | _ => processLoop st

/-! ## WAIT (replication-manager.ts waitForReplicas, commands.ts handleWait) -/

/-- waitForReplicas of replication-manager.ts, with the replica count as
input.  The Boolean records whether REPLCONF GETACK * was propagated.  The
count of connected replicas capped by the request is returned immediately;
the source tracks no ACKs (its own TODO notes this) and never consults the
timeout, so the model needs no ACK or clock input at all. -/
def waitForReplicas (numReplicas : Int) (timeoutMs : Int) (replicaCount : Nat) :
    Int × Bool :=
  if replicaCount = 0 then (0, false)
  else (min (replicaCount : Int) numReplicas, true)

/-- handleWait of commands.ts: argument validation, the two immediate-zero
cases, then delegation to waitForReplicas. -/
def handleWait (args : List String) (replicaCount : Nat) : String :=
  if ¬ args.length = 2 then
    encodeError "ERR wrong number of arguments for 'wait' command"
  else
    match jsParseInt (args.headD ""), jsParseInt ((args.drop 1).headD "") with
    | some numReplicas, some timeout =>
      if numReplicas < 0 then encodeError "ERR negative number of replicas"
      else if numReplicas = 0 then encodeInteger 0
      else if replicaCount = 0 then encodeInteger 0
      else encodeInteger (waitForReplicas numReplicas timeout replicaCount).1
    | _, _ => encodeError "ERR invalid arguments for 'wait' command"

/-! ## Geo encoding (geo command module)

BigInt arithmetic is exact and is modelled on the naturals (the masking
first line reduces any input into 32 bits); the rational normalization is
the real-number semantics of the source's double formula, exact on the
inputs used below. -/

/-- MIN_LATITUDE constant. -/
def MIN_LATITUDE : ℚ := -85.05112878

/-- MAX_LATITUDE constant. -/
def MAX_LATITUDE : ℚ := 85.05112878

/-- MIN_LONGITUDE constant. -/
def MIN_LONGITUDE : ℚ := -180

/-- MAX_LONGITUDE constant. -/
def MAX_LONGITUDE : ℚ := 180

/-- LATITUDE_RANGE constant. -/
def LATITUDE_RANGE : ℚ := MAX_LATITUDE - MIN_LATITUDE

/-- LONGITUDE_RANGE constant. -/
def LONGITUDE_RANGE : ℚ := MAX_LONGITUDE - MIN_LONGITUDE

/-- The mask-and-shift chain of spread32BitsTo64Bits on the naturals,
beginning with the source's 32-bit mask. -/
def spread32Core (v0 : Nat) : Nat :=
  let r0 := v0 &&& 0xffffffff
  let r1 := (r0 ||| (r0 <<< 16)) &&& 0x0000ffff0000ffff
  let r2 := (r1 ||| (r1 <<< 8)) &&& 0x00ff00ff00ff00ff
  let r3 := (r2 ||| (r2 <<< 4)) &&& 0x0f0f0f0f0f0f0f0f
  let r4 := (r3 ||| (r3 <<< 2)) &&& 0x3333333333333333
  (r4 ||| (r4 <<< 1)) &&& 0x5555555555555555

/-- spread32BitsTo64Bits: spread the low 32 bits of the input onto the even
bit positions of a 64-bit word.  The BigInt conversion of a JavaScript
number followed by the 32-bit mask is two's-complement truncation, the
integer remainder here. -/
def spread32BitsTo64Bits (v : Int) : Nat :=
  spread32Core (v % (2 ^ 32 : Int)).toNat

/-- interleaveBits of the geo module: the first argument (the latitude grid
index at the call site) lands on the even bit positions, the second (the
longitude index) is shifted onto the odd positions. -/
def interleaveBits (x y : Int) : Nat :=
  spread32BitsTo64Bits x ||| (spread32BitsTo64Bits y <<< 1)

/-- encodeGeoHash of the geo module: normalize each coordinate to a 26-bit
grid index by flooring, then interleave with latitude first. -/
def encodeGeoHash (latitude longitude : ℚ) : Nat :=
  let normalizedLatitude := 2 ^ 26 * (latitude - MIN_LATITUDE) / LATITUDE_RANGE
  let normalizedLongitude := 2 ^ 26 * (longitude - MIN_LONGITUDE) / LONGITUDE_RANGE
  let latInt := ⌊normalizedLatitude⌋
  let lonInt := ⌊normalizedLongitude⌋
  interleaveBits latInt lonInt

/-- Modelled from the spec: the claimed placement that interleaving puts the
latitude bits on the odd positions and the longitude bits on the even
positions (the transpose of the argument order the source uses).  Kept for
comparison with encodeGeoHash. -/
def specGeoScoreLatOdd (latitude longitude : ℚ) : Nat :=
  let normalizedLatitude := 2 ^ 26 * (latitude - MIN_LATITUDE) / LATITUDE_RANGE
  let normalizedLongitude := 2 ^ 26 * (longitude - MIN_LONGITUDE) / LONGITUDE_RANGE
  let latInt := ⌊normalizedLatitude⌋
  let lonInt := ⌊normalizedLongitude⌋
  spread32BitsTo64Bits lonInt ||| (spread32BitsTo64Bits latInt <<< 1)

/-! ## KEYS pattern matching (commands.ts matchesPattern, handleKeys)

The regular-expression construction of matchesPattern is embedded
literally: the escaping pass, the two literal replacements, the anchors,
and an evaluator for exactly the fragment of JavaScript regular expressions
those passes can produce (literal characters, escaped characters, dot, and
the star and question-mark quantifiers with optional lazy markers;
a quantifier with nothing to repeat raises the SyntaxError the source
catches). -/

/-- The characters escaped by the first replace of matchesPattern. -/
def regexSpecials : List Char :=
  ['.', '+', '^', '$', '\x7b', '\x7d', '(', ')', '|', '[', ']', '\\']

/-- The escaping pass: prefix every regex special with a backslash. -/
def escapeStep (cs : List Char) : List Char :=
  cs.flatMap (fun c => if c ∈ regexSpecials then ['\\', c] else [c])

/-- The second replace: each backslash-star pair becomes dot-star (left to
right, non-overlapping). -/
def replaceEscStar : List Char → List Char
  | '\\' :: '*' :: rest => '.' :: '*' :: replaceEscStar rest
  | c :: rest => c :: replaceEscStar rest
  | [] => []

/-- The third replace: each backslash-question pair becomes a dot. -/
def replaceEscQuestion : List Char → List Char
  | '\\' :: '?' :: rest => '.' :: replaceEscQuestion rest
  | c :: rest => c :: replaceEscQuestion rest
  | [] => []

/-- An atom of the generated regular expressions. -/
inductive RAtom
  | rchar (c : Char)
  | rdot
deriving DecidableEq, Repr

/-- A quantifier on an atom. -/
inductive RQuant
  | one | star | opt
deriving DecidableEq, Repr

/-- Read the optional quantifier (and its optional lazy marker, which does
not change acceptance) following an atom. -/
def readQuant : List Char → RQuant × List Char
  | '*' :: '?' :: rest => (.star, rest)
  | '*' :: rest => (.star, rest)
  | '?' :: '?' :: rest => (.opt, rest)
  | '?' :: rest => (.opt, rest)
  | rest => (.one, rest)

/-- Compile the unanchored body of a generated regular expression, fuelled
for structural recursion; none is a SyntaxError (a quantifier with nothing
to repeat, or a dangling escape). -/
def compileItemsF : Nat → List Char → Option (List (RAtom × RQuant))
  | 0, _ => none
  | _ + 1, [] => some []
  | _ + 1, '*' :: _ => none
  | _ + 1, '?' :: _ => none
  | fuel + 1, '\\' :: rest =>
    match rest with
    | [] => none
    | c :: rest' =>
      match readQuant rest' with
      | (q, rest'') => (compileItemsF fuel rest'').map (fun items => (RAtom.rchar c, q) :: items)
  | fuel + 1, '.' :: rest =>
    match readQuant rest with
    | (q, rest') => (compileItemsF fuel rest').map (fun items => (RAtom.rdot, q) :: items)
  | fuel + 1, c :: rest =>
    match readQuant rest with
    | (q, rest') => (compileItemsF fuel rest').map (fun items => (RAtom.rchar c, q) :: items)

/-- Compile with ample fuel (every step consumes at least one character). -/
def compileItems (cs : List Char) : Option (List (RAtom × RQuant)) :=
  compileItemsF (cs.length + 1) cs

/-- Whether an atom matches one character (dot excludes line terminators). -/
def atomMatch : RAtom → Char → Bool
  | .rchar c, x => c = x
  | .rdot, x => ¬ (x = '\n' || x = '\r')

/-- Backtracking acceptance of an item sequence against a whole string,
fuelled for structural recursion (every recursive call shrinks the item
list or the string, so the sum of both lengths is ample fuel). -/
def matchItemsF : Nat → List (RAtom × RQuant) → List Char → Bool
  | 0, _, _ => false
  | _ + 1, [], s => s.isEmpty
  | fuel + 1, (a, .one) :: rest, s =>
    match s with
    | [] => false
    | c :: s' => atomMatch a c && matchItemsF fuel rest s'
  | fuel + 1, (a, .opt) :: rest, s =>
    matchItemsF fuel rest s ||
      (match s with
       | [] => false
       | c :: s' => atomMatch a c && matchItemsF fuel rest s')
  | fuel + 1, (a, .star) :: rest, s =>
    matchItemsF fuel rest s ||
      (match s with
       | [] => false
       | c :: s' => atomMatch a c && matchItemsF fuel ((a, .star) :: rest) s')

/-- Acceptance with ample fuel. -/
def matchItems (items : List (RAtom × RQuant)) (s : List Char) : Bool :=
  matchItemsF (items.length + s.length + 1) items s

/-- Evaluate a generated anchored regular expression (the construction
always brackets the body between the two anchors) against a whole key;
an invalid body is the caught SyntaxError, yielding false. -/
def regexTest (rx : List Char) (key : List Char) : Bool :=
  match rx with
  | '^' :: rest =>
    if rest.getLast? = some '$' then
      match compileItems rest.dropLast with
      | none => false
      | some items => matchItems items key
    else false
  | _ => false

/-- matchesPattern of commands.ts: the literal star shortcut, then the
escape-and-replace construction evaluated as an anchored regular
expression. -/
def matchesPattern (key pattern : String) : Bool :=
  if pattern = "*" then true
  else
    let regexPattern :=
      '^' :: (replaceEscQuestion (replaceEscStar (escapeStep pattern.data))) ++ ['$']
    regexTest regexPattern key.data

/-- handleKeys of commands.ts: the stored keys whose name matches the
pattern, in store order. -/
def handleKeys (args : List String) (store : Store) : String :=
  if ¬ args.length = 1 then
    encodeError "ERR wrong number of arguments for 'keys' command"
  else
    let pattern := args.headD ""
    encodeArray ((store.map Prod.fst).filter
      (fun key => matchesPattern key pattern) |>.map some)

/-- Modelled from the spec: the glob semantics the KEYS documentation
describes (star for any sequence, question mark for any single character,
bracketed classes with ranges, backslash escaping), absent from the
implementation's regex construction.  Kept for comparison with
matchesPattern. -/
def globClassMatch : List Char → Char → Bool
  | a :: '-' :: b :: rest, c => (a ≤ c && c ≤ b) || globClassMatch rest c
  | a :: rest, c => a = c || globClassMatch rest c
  | [], _ => false

/-- Modelled from the spec: glob acceptance of a pattern against a key,
fuelled for structural recursion. -/
def globMatchesF : Nat → List Char → List Char → Bool
  | 0, _, _ => false
  | _ + 1, [], k => k.isEmpty
  | fuel + 1, '*' :: p, k =>
    globMatchesF fuel p k ||
      (match k with
       | [] => false
       | _ :: k' => globMatchesF fuel ('*' :: p) k')
  | fuel + 1, '?' :: p, k =>
    match k with
    | [] => false
    | _ :: k' => globMatchesF fuel p k'
  | fuel + 1, '\\' :: c :: p, k =>
    match k with
    | [] => false
    | d :: k' => c = d && globMatchesF fuel p k'
  | fuel + 1, '[' :: p, k =>
    match k with
    | [] => false
    | d :: k' =>
      globClassMatch (p.takeWhile (fun c => ¬ c = ']')) d &&
        globMatchesF fuel ((p.dropWhile (fun c => ¬ c = ']')).drop 1) k'
  | fuel + 1, c :: p, k =>
    match k with
    | [] => false
    | d :: k' => c = d && globMatchesF fuel p k'

/-- Glob acceptance with ample fuel. -/
def globMatches (p k : List Char) : Bool :=
  globMatchesF (p.length + k.length + 1) p k

/-! ## Specification-side definitions used by the theorems -/

/-- The expected event trace of the replica ingestion loop on a stream of
propagated commands starting from a given applied offset: each GETACK is
answered with the offset accumulated from the commands before it, every
command contributes its computed byte count to the running offset. -/
def traceFrom (off : Nat) : List (String × List String) → List ReplicaEvent
  | [] => []
  | (c, args) :: rest =>
    let command := jsToUpper c
    let bytes := calculateCommandBytes command args
    (if getAckDetected command args then
       ReplicaEvent.ackToMaster
         (encodeArray [some "REPLCONF", some "ACK", some (natToString off)])
     else ReplicaEvent.forwardToSelf (encodeRESPCommand command args))
      :: traceFrom (off + bytes) rest

/-- The well-formed sorted-set state handleZAdd maintains at a key: a
zset-tagged entry holding an association list with distinct members kept in
(score, member) order. -/
def ZsetInv (store : Store) (k : String) (m : List (String × ℚ)) : Prop :=
  (∃ exp, kvGet store k = some { value := .vzset m, expiry := exp, typ := some .zset })
    ∧ (m.map Prod.fst).Nodup
    ∧ m.Pairwise (fun a b => zsetLe a b = true)

/-! ## Helper lemmas -/

/-- A decimal digit is not whitespace and not any of the marker characters
the parsers inspect. -/
theorem isDigitChar_facts {c : Char} (h : isDigitChar c = true) :
    jsIsSpace c = false ∧ ¬ c = '-' ∧ ¬ c = '+' ∧ ¬ c = 'x' ∧ ¬ c = 'X'
      ∧ ¬ c = '\r' ∧ ¬ c = '.' := by
  refine ⟨?_, ?_, ?_, ?_, ?_, ?_, ?_⟩
  · cases hc : jsIsSpace c
    · rfl
    · exfalso
      simp [jsIsSpace] at hc
      rcases hc with ((rfl | rfl) | rfl) | rfl <;> exact absurd h (by decide)
  all_goals intro hc; rw [hc] at h; exact absurd h (by decide)

/-- Digit runs pass through the whitespace skip untouched. -/
theorem dropWhile_space_digits {ds : List Char}
    (hd : ∀ c ∈ ds, isDigitChar c = true) : ds.dropWhile jsIsSpace = ds := by
  cases ds with
  | nil => rfl
  | cons d rest =>
    simp [List.dropWhile_cons, (isDigitChar_facts (hd d (by simp))).1]

/-- Digit runs are their own longest digit prefix. -/
theorem takeWhile_digits {ds : List Char}
    (hd : ∀ c ∈ ds, isDigitChar c = true) : ds.takeWhile isDigitChar = ds := by
  induction ds with
  | nil => rfl
  | cons d rest ih =>
    rw [List.takeWhile_cons, hd d (by simp), if_pos rfl,
      ih (fun c hc => hd c (by simp [hc]))]

/-- The value of a digit run grows by one digit on the right. -/
theorem digitsVal_append (xs : List Char) (c : Char) :
    digitsVal (xs ++ [c]) = 10 * digitsVal xs + digitVal c := by
  simp [digitsVal, List.foldl_append]
  omega

/-- All characters the fuelled decimal rendering produces are digits. -/
theorem natDecimalF_digits :
    ∀ fuel n, n < fuel → ∀ c ∈ natDecimalF fuel n, isDigitChar c = true := by
  intro fuel
  induction fuel with
  | zero => omega
  | succ f ih =>
    intro n hn c hc
    rw [natDecimalF] at hc
    by_cases h10 : n < 10
    · rw [if_pos h10] at hc
      simp at hc
      subst hc
      exact (by decide : ∀ m, m < 10 → isDigitChar (digitChar m) = true) n h10
    · rw [if_neg h10] at hc
      rcases List.mem_append.mp hc with h1 | h2
      · exact ih (n / 10) (by omega) c h1
      · simp at h2
        subst h2
        exact (by decide : ∀ m, m < 10 → isDigitChar (digitChar m) = true) (n % 10)
          (by omega)

/-- The fuelled decimal rendering evaluates back to its input. -/
theorem digitsVal_natDecimalF :
    ∀ fuel n, n < fuel → digitsVal (natDecimalF fuel n) = n := by
  intro fuel
  induction fuel with
  | zero => omega
  | succ f ih =>
    intro n hn
    rw [natDecimalF]
    by_cases h10 : n < 10
    · rw [if_pos h10]
      have := (by decide : ∀ m, m < 10 → digitVal (digitChar m) = m) n h10
      simp [digitsVal, this]
    · rw [if_neg h10, digitsVal_append, ih (n / 10) (by omega),
        (by decide : ∀ m, m < 10 → digitVal (digitChar m) = m) (n % 10) (by omega)]
      omega

/-- All characters of the decimal rendering are digits. -/
theorem natDecimal_digits (n : Nat) : ∀ c ∈ natDecimal n, isDigitChar c = true :=
  natDecimalF_digits (n + 1) n (Nat.lt_succ_self n)

/-- The decimal rendering evaluates back to its input. -/
theorem digitsVal_natDecimal (n : Nat) : digitsVal (natDecimal n) = n :=
  digitsVal_natDecimalF (n + 1) n (Nat.lt_succ_self n)

/-- The decimal rendering is never empty. -/
theorem natDecimal_ne_nil (n : Nat) : ¬ natDecimal n = [] := by
  unfold natDecimal natDecimalF
  by_cases h10 : n < 10 <;> simp [h10]

/-- parseInt on a pure digit run returns its value. -/
theorem jsParseInt_digits (ds : List Char)
    (hd : ∀ c ∈ ds, isDigitChar c = true) (hne : ¬ ds = []) :
    jsParseInt (String.mk ds) = some (digitsVal ds) := by
  obtain ⟨d, rest, rfl⟩ := List.exists_cons_of_ne_nil hne
  have hdd := hd d (by simp)
  have hfacts := isDigitChar_facts hdd
  have hdrop : (d :: rest).dropWhile jsIsSpace = d :: rest := dropWhile_space_digits hd
  have htake : (d :: rest).takeWhile isDigitChar = d :: rest := takeWhile_digits hd
  have hhex : ¬ ((decide ((d :: rest).head? = some '0') &&
      (decide ((List.drop 1 (d :: rest)).head? = some 'x')
        || decide ((List.drop 1 (d :: rest)).head? = some 'X'))) = true) := by
    cases rest with
    | nil => simp
    | cons d2 rest' =>
      have h2 := isDigitChar_facts (hd d2 (by simp))
      simp [h2.2.2.2.1, h2.2.2.2.2.1]
  simp only [jsParseInt, String.data, hdrop]
  rw [if_neg (show ¬ ((d :: rest).head? = some '-') by simp [hfacts.2.1])]
  rw [if_neg (show ¬ ((decide ((d :: rest).head? = some '-')
      || decide ((d :: rest).head? = some '+')) = true)
    by simp [hfacts.2.1, hfacts.2.2.1])]
  rw [if_neg hhex, htake]
  simp

/-- The decimal accumulator on a bare digit run is the run's value. -/
theorem decToRat_digits (ds : List Char) :
    decToRat ds [] 0 = (digitsVal ds : ℚ) := by
  simp [decToRat, digitsVal]

/-- The Number conversion on a pure digit run returns its value. -/
theorem jsNumberOfString_digits (ds : List Char)
    (hd : ∀ c ∈ ds, isDigitChar c = true) (hne : ¬ ds = []) :
    jsNumberOfString (String.mk ds) = some (digitsVal ds) := by
  obtain ⟨d, rest, rfl⟩ := List.exists_cons_of_ne_nil hne
  have hdd := hd d (by simp)
  have hfacts := isDigitChar_facts hdd
  have hdrop : (d :: rest).dropWhile jsIsSpace = d :: rest := dropWhile_space_digits hd
  have htake : (d :: rest).takeWhile isDigitChar = d :: rest := takeWhile_digits hd
  simp only [jsNumberOfString, String.data, hdrop]
  rw [if_neg (show ¬ ((d :: rest).isEmpty = true) by simp)]
  rw [if_neg (show ¬ ((d :: rest).head? = some '-') by simp [hfacts.2.1])]
  rw [if_neg (show ¬ ((decide ((d :: rest).head? = some '-')
      || decide ((d :: rest).head? = some '+')) = true)
    by simp [hfacts.2.1, hfacts.2.2.1])]
  rw [htake, List.drop_length]
  simp [parseExpSuffix, decToRat_digits]

/-- parseFloat on a pure digit run returns its value. -/
theorem jsParseFloat_digits (ds : List Char)
    (hd : ∀ c ∈ ds, isDigitChar c = true) (hne : ¬ ds = []) :
    jsParseFloat (String.mk ds) = some (digitsVal ds) := by
  obtain ⟨d, rest, rfl⟩ := List.exists_cons_of_ne_nil hne
  have hdd := hd d (by simp)
  have hfacts := isDigitChar_facts hdd
  have hdrop : (d :: rest).dropWhile jsIsSpace = d :: rest := dropWhile_space_digits hd
  have htake : (d :: rest).takeWhile isDigitChar = d :: rest := takeWhile_digits hd
  simp only [jsParseFloat, String.data, hdrop]
  rw [if_neg (show ¬ ((d :: rest).head? = some '-') by simp [hfacts.2.1])]
  rw [if_neg (show ¬ ((decide ((d :: rest).head? = some '-')
      || decide ((d :: rest).head? = some '+')) = true)
    by simp [hfacts.2.1, hfacts.2.2.1])]
  rw [htake, List.drop_length]
  simp [parseExpSuffix, decToRat_digits]

/-- An encoded error reply is never the empty string idValidation uses for
success. -/
theorem encodeError_ne_empty (msg : String) : ¬ encodeError msg = "" := by
  intro h
  have : (encodeError msg).data = ("" : String).data := by rw [h]
  simp [encodeError, CRLF, String.data_append] at this

/-- Map.get after Map.set at the same key. -/
theorem kvGet_kvSet_self (store : Store) (k : String) (e : KeyValueEntry) :
    kvGet (kvSet store k e) k = some e := by
  induction store with
  | nil => simp [kvSet, kvGet, List.find?]
  | cons p rest ih =>
    by_cases h : p.1 = k
    · simp [kvSet, h, kvGet, List.find?]
    · simp only [kvSet]
      rw [if_neg h]
      simpa [kvGet, List.find?, h] using ih

/-- Setting the same key twice keeps only the second write. -/
theorem kvSet_kvSet (store : Store) (k : String) (e₁ e₂ : KeyValueEntry) :
    kvSet (kvSet store k e₁) k e₂ = kvSet store k e₂ := by
  induction store with
  | nil => simp [kvSet]
  | cons p rest ih =>
    by_cases h : p.1 = k
    · simp [kvSet, h]
    · simp [kvSet, h, ih]

/-- Lexicographic comparison is asymmetric. -/
theorem listLexLt_asymm :
    ∀ a b, listLexLt a b = true → listLexLt b a = false := by
  intro a
  induction a with
  | nil =>
    intro b h
    cases b with
    | nil => simp [listLexLt] at h
    | cons y ys => rfl
  | cons x xs ih =>
    intro b h
    cases b with
    | nil => simp [listLexLt] at h
    | cons y ys =>
      simp only [listLexLt] at h ⊢
      by_cases hxy : x.toNat < y.toNat
      · rw [if_neg (show ¬ y.toNat < x.toNat by omega), if_pos hxy]
      · rw [if_neg hxy] at h
        by_cases hyx : y.toNat < x.toNat
        · rw [if_pos hyx] at h
          exact absurd h (by decide)
        · rw [if_neg hyx] at h
          rw [if_neg hyx, if_neg hxy]
          exact ih ys h

/-- Non-strict lexicographic order (the negation of the strict one) is
transitive. -/
theorem listLexLt_false_trans :
    ∀ a b c, listLexLt a b = false → listLexLt b c = false →
      listLexLt a c = false := by
  intro a
  induction a with
  | nil =>
    intro b c h1 h2
    cases b with
    | cons y ys => simp [listLexLt] at h1
    | nil =>
      cases c with
      | cons z zs => simp [listLexLt] at h2
      | nil => rfl
  | cons x xs ih =>
    intro b c h1 h2
    cases b with
    | nil =>
      cases c with
      | cons z zs => simp [listLexLt] at h2
      | nil => rfl
    | cons y ys =>
      cases c with
      | nil => rfl
      | cons z zs =>
        simp only [listLexLt] at h1 h2 ⊢
        by_cases hxy : x.toNat < y.toNat
        · rw [if_pos hxy] at h1
          exact absurd h1 (by decide)
        · rw [if_neg hxy] at h1
          by_cases hyz : y.toNat < z.toNat
          · rw [if_pos hyz] at h2
            exact absurd h2 (by decide)
          · rw [if_neg hyz] at h2
            rw [if_neg (show ¬ x.toNat < z.toNat by omega)]
            by_cases hzx : z.toNat < x.toNat
            · rw [if_pos hzx]
            · rw [if_neg hzx]
              rw [if_neg (show ¬ y.toNat < x.toNat by omega)] at h1
              rw [if_neg (show ¬ z.toNat < y.toNat by omega)] at h2
              exact ih ys zs h1 h2

/-- localeCompare is nonpositive exactly when the second string is not
strictly below the first. -/
theorem localeCompareInt_nonpos (a b : String) :
    localeCompareInt a b ≤ 0 ↔ listLexLt b.data a.data = false := by
  unfold localeCompareInt
  by_cases h1 : listLexLt a.data b.data
  · rw [if_pos h1]
    norm_num [listLexLt_asymm a.data b.data h1]
  · rw [if_neg h1]
    by_cases h2 : listLexLt b.data a.data
    · rw [if_pos h2]
      norm_num [h2]
    · rw [if_neg h2]
      simp [Bool.not_eq_true] at h2
      simp [h2]

/-- The ZADD comparator in propositional form. -/
theorem zsetLe_iff (a b : String × ℚ) :
    zsetLe a b = true ↔
      (a.2 < b.2 ∨ (a.2 = b.2 ∧ listLexLt b.1.data a.1.data = false)) := by
  unfold zsetLe
  by_cases h : a.2 = b.2
  · rw [if_pos h]
    simp [h, localeCompareInt_nonpos]
  · rw [if_neg h]
    simp [h]

/-- The ZADD comparator is transitive. -/
theorem zsetLe_trans (a b c : String × ℚ)
    (h1 : zsetLe a b = true) (h2 : zsetLe b c = true) : zsetLe a c = true := by
  rw [zsetLe_iff] at h1 h2 ⊢
  rcases h1 with h1 | ⟨he1, hl1⟩ <;> rcases h2 with h2 | ⟨he2, hl2⟩
  · exact Or.inl (lt_trans h1 h2)
  · exact Or.inl (he2 ▸ h1)
  · exact Or.inl (he1.symm ▸ h2)
  · exact Or.inr ⟨he1.trans he2, listLexLt_false_trans _ _ _ hl2 hl1⟩

/-- The ZADD comparator is total. -/
theorem zsetLe_total (a b : String × ℚ) : (zsetLe a b || zsetLe b a) = true := by
  rw [Bool.or_eq_true, zsetLe_iff, zsetLe_iff]
  rcases lt_trichotomy a.2 b.2 with h | h | h
  · exact Or.inl (Or.inl h)
  · by_cases hl : listLexLt b.1.data a.1.data
    · exact Or.inr (Or.inr ⟨h.symm, listLexLt_asymm _ _ hl⟩)
    · simp [Bool.not_eq_true] at hl
      exact Or.inl (Or.inr ⟨h, hl⟩)
  · exact Or.inr (Or.inl h)

/-- Map.set with an already present member keeps the key sequence. -/
theorem zsetSet_map_fst (m : List (String × ℚ)) (member : String) (score : ℚ)
    (h : zsetHas m member = true) :
    (zsetSet m member score).map Prod.fst = m.map Prod.fst := by
  induction m with
  | nil => simp [zsetHas] at h
  | cons p rest ih =>
    obtain ⟨k', v'⟩ := p
    simp only [zsetSet]
    by_cases hk : k' = member
    · rw [if_pos hk]
      simp [hk]
    · rw [if_neg hk]
      have h' : zsetHas rest member = true := by
        simp [zsetHas] at h ⊢
        tauto
      simp [ih h']

/-- A successful index search implies Map.has. -/
theorem zsetHas_of_findIdx :
    ∀ (m : List (String × ℚ)) (member : String) (i j : Nat),
      List.findIdx? (fun p => p.1 = member) m j = some i →
      zsetHas m member = true := by
  intro m
  induction m with
  | nil => intro member i j h; simp [List.findIdx?] at h
  | cons p rest ih =>
    intro member i j h
    rw [List.findIdx?_cons] at h
    by_cases hp : p.1 = member
    · simp [zsetHas]
      exact Or.inl hp
    · rw [if_neg (by simp [hp])] at h
      have := ih member i (j + 1) h
      simp [zsetHas] at this ⊢
      exact Or.inr this

/-! ## C10: the TYPE command -/

/-- C10: TYPE returns the simple string none when the key is absent, stream
when the entry's tag is stream, and string in every other case, including
entries tagged list or zset (those tags are never reported). -/
theorem typeCommandReports (store : Store) (k : String) :
    (kvGet store k = none → handleType [k] store = encodeSimpleString "none")
    ∧ (∀ e, kvGet store k = some e → e.typ = some .stream →
        handleType [k] store = encodeSimpleString "stream")
    ∧ (∀ e, kvGet store k = some e → ¬ e.typ = some .stream →
        handleType [k] store = encodeSimpleString "string") := by
  refine ⟨fun h => ?_, fun e he ht => ?_, fun e he ht => ?_⟩
  · simp [handleType, h]
  · simp [handleType, he, ht]
  · simp [handleType, he, ht]

/-- Witness for typeCommandReports: a store holding a sorted set, a stream
and nothing under a third key. -/
theorem typeCommandReportsWitness :
    handleType ["z"] [("z", { value := .vzset [], typ := some .zset }),
        ("s", { value := .vstream [], typ := some .stream })]
      = encodeSimpleString "string"
    ∧ handleType ["s"] [("z", { value := .vzset [], typ := some .zset }),
        ("s", { value := .vstream [], typ := some .stream })]
      = encodeSimpleString "stream"
    ∧ handleType ["g"] [("z", { value := .vzset [], typ := some .zset }),
        ("s", { value := .vstream [], typ := some .stream })]
      = encodeSimpleString "none" := by
  refine ⟨?_, ?_, ?_⟩
  · exact (typeCommandReports _ "z").2.2
      { value := .vzset [], typ := some .zset } (by decide) (by decide)
  · exact (typeCommandReports _ "s").2.1
      { value := .vstream [], typ := some .stream } (by decide) (by decide)
  · exact (typeCommandReports _ "g").1 (by decide)

/-! ## C1: the WAIT command -/

/-- C1 (code bug): with one connected replica, WAIT 1 500 returns 1
immediately; waitForReplicas returns the connected-replica count capped by
the request without consulting any ACK (the model has no ACK input because
the source tracks none; its own TODO comment records the gap), and never
waits.  The zero cases of the claim do hold. -/
theorem waitReturnsMinImmediately :
    waitForReplicas 1 500 1 = (1, true)
    ∧ handleWait ["1", "500"] 1 = encodeInteger 1
    ∧ handleWait ["2", "500"] 5 = encodeInteger 2
    ∧ handleWait ["5", "500"] 2 = encodeInteger 2
    ∧ handleWait ["0", "500"] 3 = encodeInteger 0
    ∧ handleWait ["3", "500"] 0 = encodeInteger 0 := by
  exact ⟨rfl, rfl, rfl, rfl, rfl, rfl⟩

/-! ## C9: the KEYS pattern matcher -/

/-- C9 (code bug): the regular expression built by matchesPattern leaves a
bare star as a quantifier on the previous character and escapes brackets
and backslashes literally, so KEYS a* does not return the stored key abc
(the star pattern matches only runs of the letter a), and a character class
matches only its own literal spelling — while the glob semantics the code's
own comment and the specification describe accept both. -/
theorem keysPatternRegexBroken :
    matchesPattern "abc" "a*" = false
    ∧ globMatches "a*".data "abc".data = true
    ∧ matchesPattern "aaa" "a*" = true
    ∧ matchesPattern "a" "[ab]" = false
    ∧ globMatches "[ab]".data "a".data = true
    ∧ matchesPattern "[ab]" "[ab]" = true
    ∧ handleKeys ["a*"] [("abc", { value := .vstr "v" })] = encodeArray []
    ∧ handleKeys ["a*"] [("aa", { value := .vstr "v" })]
        = encodeArray [some "aa"] := by
  exact ⟨rfl, rfl, rfl, rfl, rfl, rfl, rfl, rfl⟩

/-! ## C6: the INCR command -/

/-- C6 (counterexample): INCR on a key holding the string 12abc, which is
not an integer, replies with integer 13 and stores 13 instead of failing
with the claimed error, because parseInt accepts the leading integer
literal and ignores the rest. -/
theorem incrParsesIntegerPrefix :
    handleIncr 0 ["k"] [("k", { value := .vstr "12abc" })]
      = (encodeInteger 13, [("k", { value := .vstr "13" })])
    ∧ ¬ encodeInteger 13
        = encodeError "ERR value is not an integer or out of range" := by
  exact ⟨rfl, by decide⟩

/-- C6 (amended): INCR stores and returns 1 on an absent or expired key; on
a String value it applies parseInt, which extracts a leading optionally
signed integer literal and ignores trailing characters: when no such prefix
exists the error is returned and nothing changes, otherwise the parsed
value plus one is stored and returned with no 64-bit overflow check (the
bounds hypothesis keeps the exact model inside the range where JavaScript
double arithmetic is also exact). -/
theorem incrCharacterization (now : Int) (store : Store) (k : String) :
    (kvGet store k = none →
      handleIncr now [k] store = (encodeInteger 1, kvSet store k { value := .vstr "1" }))
    ∧ (∀ e, kvGet store k = some e → expiryActive e.expiry now = true →
        handleIncr now [k] store
          = (encodeInteger 1, kvSet (kvDelete store k) k { value := .vstr "1" }))
    ∧ (∀ e s, kvGet store k = some e → expiryActive e.expiry now = false →
        e.value = .vstr s → jsParseInt s = none →
        handleIncr now [k] store
          = (encodeError "ERR value is not an integer or out of range", store))
    ∧ (∀ e s v, kvGet store k = some e → expiryActive e.expiry now = false →
        e.value = .vstr s → jsParseInt s = some v →
        -2 ^ 53 < v → v < 2 ^ 53 →
        handleIncr now [k] store
          = (encodeInteger (v + 1),
             kvSet store k { e with value := .vstr (intToString (v + 1)) })) := by
  refine ⟨fun h => ?_, fun e he hexp => ?_, fun e s he hexp hv hp => ?_,
    fun e s v he hexp hv hp _ _ => ?_⟩
  · simp [handleIncr, h]
  · simp [handleIncr, he, hexp]
  · simp [handleIncr, he, hexp, jsStringifyVal, hv, hp]
  · simp [handleIncr, he, hexp, jsStringifyVal, hv, hp]

/-- Witness for incrCharacterization: the four branches at concrete stores
(absent key, expired entry, non-numeric string, numeric string). -/
theorem incrCharacterizationWitness :
    handleIncr 10 ["k"] [] = (encodeInteger 1, [("k", { value := .vstr "1" })])
    ∧ handleIncr 10 ["k"] [("k", { value := .vstr "7", expiry := some 4 })]
        = (encodeInteger 1, [("k", { value := .vstr "1" })])
    ∧ handleIncr 10 ["k"] [("k", { value := .vstr "abc" })]
        = (encodeError "ERR value is not an integer or out of range",
           [("k", { value := .vstr "abc" })])
    ∧ handleIncr 10 ["k"] [("k", { value := .vstr "41" })]
        = (encodeInteger 42, [("k", { value := .vstr "42" })]) := by
  refine ⟨?_, ?_, ?_, ?_⟩
  · exact (incrCharacterization 10 [] "k").1 (by decide)
  · exact (incrCharacterization 10 _ "k").2.1
      { value := .vstr "7", expiry := some 4 } (by decide) (by decide)
  · exact (incrCharacterization 10 _ "k").2.2.1
      { value := .vstr "abc" } "abc" (by decide) (by decide) (by decide) (by decide)
  · exact (incrCharacterization 10 [("k", { value := .vstr "41" })] "k").2.2.2
      { value := .vstr "41" } "41" 41 (by decide) (by decide) (by decide)
      (by decide) (by decide) (by decide)

/-! ## C2: type mismatch handling -/

/-- C2 (counterexample): XADD with an explicit id on a key holding a sorted
set does not return the WRONGTYPE reply the claim demands: handleXAdd never
inspects the type tag, skips id validation because a Map has no length, and
throws a TypeError when it calls push on the Map (the store is left
unchanged only because the throw happens before the append). -/
theorem xaddOnZsetThrowsNotWrongtype :
    handleXAdd 0 ["k", "1-1", "f", "v"]
        [("k", { value := .vzset [("a", 1)], typ := some .zset })]
      = .error (.typeError "push is not a function") := by
  rfl

/-- C2 (amended): the commands that do guard types — the sorted-set family —
return WRONGTYPE and leave the store unchanged whenever the entry carries a
type tag other than zset; XADD performs no such check (see the
counterexample, where it throws instead of replying WRONGTYPE, and it will
even append to a key holding an empty array).  Untagged entries (as SET
creates) bypass the guard as well. -/
theorem zsetGuardWrongtypeNoMutation (store : Store) (k : String)
    (e : KeyValueEntry) (t : TypTag) (he : kvGet store k = some e)
    (ht : e.typ = some t) (hz : ¬ t = .zset) :
    (∀ rest : List String, 2 ≤ rest.length → rest.length % 2 = 0 →
      handleZAdd (k :: rest) store
        = (encodeError "WRONGTYPE Operation against a key holding the wrong kind of value",
           store))
    ∧ (∀ member, handleZRank [k, member] store
        = .ok (encodeError "WRONGTYPE Operation against a key holding the wrong kind of value"))
    ∧ (∀ s₁ s₂ i₁ i₂, jsParseInt s₁ = some i₁ → jsParseInt s₂ = some i₂ →
        handleZRange [k, s₁, s₂] store
          = .ok (encodeError "WRONGTYPE Operation against a key holding the wrong kind of value")) := by
  refine ⟨fun rest h2 hev => ?_, fun member => ?_, fun s₁ s₂ i₁ i₂ h₁ h₂ => ?_⟩
  · have e1 : ¬ rest.length + 1 < 3 := by omega
    have e2 : ¬ (rest.length + 1) % 2 = 0 := by omega
    simp [handleZAdd, e1, e2, getSortedSet, he, ht]
    rw [if_neg hz]
  · simp [handleZRank, he, List.headD, ht]
    intro h
    exact absurd h hz
  · simp [handleZRange, he, List.headD, h₁, h₂, ht]
    intro h
    exact absurd h hz

/-- Witness for zsetGuardWrongtypeNoMutation: a stream-tagged key receives
WRONGTYPE from ZADD, ZRANK and ZRANGE, with the store unchanged. -/
theorem zsetGuardWrongtypeNoMutationWitness :
    handleZAdd ["k", "1", "a"] [("k", { value := .vstream [], typ := some .stream })]
      = (encodeError "WRONGTYPE Operation against a key holding the wrong kind of value",
         [("k", { value := .vstream [], typ := some .stream })])
    ∧ handleZRank ["k", "m"] [("k", { value := .vstream [], typ := some .stream })]
      = .ok (encodeError "WRONGTYPE Operation against a key holding the wrong kind of value")
    ∧ handleZRange ["k", "0", "-1"] [("k", { value := .vstream [], typ := some .stream })]
      = .ok (encodeError "WRONGTYPE Operation against a key holding the wrong kind of value") := by
  have h := zsetGuardWrongtypeNoMutation
    [("k", { value := .vstream [], typ := some .stream })] "k"
    { value := .vstream [], typ := some .stream } .stream (by decide) rfl (by decide)
  exact ⟨h.1 ["1", "a"] (by decide) (by decide), h.2.1 "m",
    h.2.2 "0" "-1" 0 (-1) (by decide) (by decide)⟩

/-! ## C3: XADD id validation -/

/-- idValidation's message cascade as a decision on the parsed id pairs. -/
theorem idValidationMsg_spec (lastId id : String) (lq ls nq ns : ℚ)
    (h1 : parseIdPair lastId = (some lq, some ls))
    (h2 : parseIdPair id = (some nq, some ns)) :
    idValidationMsg lastId id =
      if nq = 0 ∧ ns = 0 then
        encodeError "ERR The ID specified in XADD must be greater than 0-0"
      else if (nq = lq ∧ ns ≤ ls) ∨ nq < lq then
        encodeError
          "ERR The ID specified in XADD is equal or smaller than the target stream top item"
      else "" := by
  unfold idValidationMsg
  rw [h1, h2]
  simp only [jsEq, jsLe, jsLt, Option.isNone_some, Bool.or_false, decide_eq_true_eq,
    Bool.and_eq_true]
  split_ifs <;> first | rfl | tauto

/-- C3 (counterexample): XADD with the explicit id 0-0 on an absent key is
accepted — the entry is created and 0-0 is stored — because explicit-id
validation (including the 0-0 rejection) only runs when the stream already
has at least one element; the claim says 0-0 is rejected in every state. -/
theorem xaddZeroZeroAcceptedOnEmpty :
    handleXAdd 5 ["s", "0-0", "f", "v"] []
      = .ok (encodeBulkString (some "0-0"),
          [("s", { value := .vstream [{ id := "0-0", fields := [("f", "v")] }],
                   typ := some .stream })]) := by
  rfl

/-- C3 (amended): on a stream that already has entries, an explicit
well-formed id is rejected (with the stable messages) exactly when it is
0-0 or lexicographically at most the last id, and otherwise appended, so
ids grow strictly from the second entry on; on an absent key or an empty
stream no validation runs and any explicit id — 0-0 included — is
accepted and stored. -/
theorem xaddExplicitIdValidation :
    (∀ (now : Int) (store : Store) (k id : String) (fvs : List String)
       (e : KeyValueEntry) (es : List StreamEnt) (last : StreamEnt) (lq ls nq ns : ℚ),
       kvGet store k = some e → e.value = .vstream es → es.getLast? = some last →
       parseIdPair last.id = (some lq, some ls) → parseIdPair id = (some nq, some ns) →
       ¬ (jsSplit id '-').headD "" = "*" → ¬ (jsSplit id '-')[1]? = some "*" →
       2 ≤ fvs.length → fvs.length % 2 = 0 →
       (handleXAdd now (k :: id :: fvs) store =
          if nq = 0 ∧ ns = 0 then
            .ok (encodeError "ERR The ID specified in XADD must be greater than 0-0", store)
          else if (nq = lq ∧ ns ≤ ls) ∨ nq < lq then
            .ok (encodeError
              "ERR The ID specified in XADD is equal or smaller than the target stream top item",
              store)
          else
            .ok (encodeBulkString (some id),
              kvSet store k
                { e with value := .vstream (es ++ [{ id := id, fields := buildFieldMap fvs }]) }))
       ∧ (¬ ((nq = 0 ∧ ns = 0) ∨ (nq = lq ∧ ns ≤ ls) ∨ nq < lq) ↔
           (lq < nq ∨ (lq = nq ∧ ls < ns)) ∧ ¬ (nq = 0 ∧ ns = 0)))
    ∧ (∀ (now : Int) (store : Store) (k id : String) (fvs : List String),
       kvGet store k = none →
       ¬ (jsSplit id '-').headD "" = "*" → ¬ (jsSplit id '-')[1]? = some "*" →
       2 ≤ fvs.length → fvs.length % 2 = 0 →
       handleXAdd now (k :: id :: fvs) store =
         .ok (encodeBulkString (some id),
           kvSet store k { value := .vstream [{ id := id, fields := buildFieldMap fvs }],
                           expiry := none, typ := some .stream }))
    ∧ (∀ (now : Int) (store : Store) (k id : String) (fvs : List String)
       (e : KeyValueEntry),
       kvGet store k = some e → e.value = .vstream [] →
       ¬ (jsSplit id '-').headD "" = "*" → ¬ (jsSplit id '-')[1]? = some "*" →
       2 ≤ fvs.length → fvs.length % 2 = 0 →
       handleXAdd now (k :: id :: fvs) store =
         .ok (encodeBulkString (some id),
           kvSet store k
             { e with value := .vstream [{ id := id, fields := buildFieldMap fvs }] })) := by
  refine ⟨fun now store k id fvs e es last lq ls nq ns
      he hv hlast hpl hpn hstar1 hstar2 hf2 hfe => ⟨?_, ?_⟩,
    fun now store k id fvs he hstar1 hstar2 hf2 hfe => ?_,
    fun now store k id fvs e he hv hstar1 hstar2 hf2 hfe => ?_⟩
  · have hhas : kvHas store k = true := by simp [kvHas, he]
    have hes : ¬ es = [] := by
      intro h; rw [h] at hlast; simp at hlast
    have hlen : jsLengthPos e.value = true := by
      simp [jsLengthPos, hv, List.length_pos, hes]
    have hval : idValidation e id = .ok (idValidationMsg last.id id) := by
      simp [idValidation, lastIdOfVal, hv, hlast]
    simp only [handleXAdd, List.headD_cons, List.drop_succ_cons, List.drop_zero,
      List.length_cons]
    rw [if_neg (by simp; omega)]
    rw [if_neg (by simp [hhas])]
    rw [he]
    dsimp only
    rw [if_neg hstar1]
    rw [if_neg (by simp [hstar2])]
    rw [if_pos hlen]
    rw [hval]
    simp only [bind, Except.bind]
    rw [idValidationMsg_spec last.id id lq ls nq ns hpl hpn]
    by_cases c1 : nq = 0 ∧ ns = 0
    · simp [c1, encodeError_ne_empty, pure, Except.pure]
    · by_cases c2 : (nq = lq ∧ ns ≤ ls) ∨ nq < lq
      · simp [c1, c2, encodeError_ne_empty, pure, Except.pure]
      · simp [c1, c2, hv, valPush, pure, Except.pure]
  · constructor
    · intro h
      push_neg at h
      obtain ⟨h1, h2, h3⟩ := h
      refine ⟨?_, fun hc => h1 hc.1 hc.2⟩
      rcases lt_trichotomy lq nq with hlt | heq | hgt
      · exact Or.inl hlt
      · refine Or.inr ⟨heq, ?_⟩
        by_contra hns
        exact absurd (h2 heq.symm) (by simpa using le_of_not_lt hns)
      · exact absurd hgt (not_lt_of_le h3)
    · rintro ⟨hlex, h00⟩ (hc | hc | hc)
      · exact h00 hc
      · rcases hlex with hlt | ⟨heq, hls⟩
        · exact absurd hlt (by rw [hc.1]; exact lt_irrefl lq)
        · exact absurd hls (not_lt_of_le hc.2)
      · rcases hlex with hlt | ⟨heq, _⟩
        · exact absurd (lt_trans hlt hc) (lt_irrefl lq)
        · exact absurd hc (by rw [heq]; exact lt_irrefl nq)
  · have hhas : kvHas store k = false := by simp [kvHas, he]
    simp only [handleXAdd, List.headD_cons, List.drop_succ_cons, List.drop_zero,
      List.length_cons]
    rw [if_neg (by simp; omega)]
    rw [if_pos (by simp [hhas])]
    rw [kvGet_kvSet_self]
    dsimp only
    rw [if_neg hstar1]
    rw [if_neg (by simp [hstar2])]
    rw [if_neg (by simp [jsLengthPos])]
    simp [bind, Except.bind, pure, Except.pure, valPush, kvSet_kvSet]
  · have hhas : kvHas store k = true := by simp [kvHas, he]
    have hlen : jsLengthPos e.value = false := by simp [jsLengthPos, hv]
    simp only [handleXAdd, List.headD_cons, List.drop_succ_cons, List.drop_zero,
      List.length_cons]
    rw [if_neg (by simp; omega)]
    rw [if_neg (by simp [hhas])]
    rw [he]
    dsimp only
    rw [if_neg hstar1]
    rw [if_neg (by simp [hstar2])]
    rw [if_neg (by simp [hlen])]
    simp [bind, Except.bind, pure, Except.pure, hv, valPush]

/-- Witness for xaddExplicitIdValidation: on a stream ending at 1-1, id 1-2
is appended, id 1-1 is rejected, and on an absent key id 7-7 is stored. -/
theorem xaddExplicitIdValidationWitness :
    handleXAdd 5 ["s", "1-2", "f", "v"]
        [("s", { value := .vstream [{ id := "1-1", fields := [("a", "b")] }],
                 typ := some .stream })]
      = .ok (encodeBulkString (some "1-2"),
          [("s", { value := .vstream [{ id := "1-1", fields := [("a", "b")] },
                                      { id := "1-2", fields := [("f", "v")] }],
                   typ := some .stream })])
    ∧ handleXAdd 5 ["s", "1-1", "f", "v"]
        [("s", { value := .vstream [{ id := "1-1", fields := [("a", "b")] }],
                 typ := some .stream })]
      = .ok (encodeError
          "ERR The ID specified in XADD is equal or smaller than the target stream top item",
          [("s", { value := .vstream [{ id := "1-1", fields := [("a", "b")] }],
                   typ := some .stream })])
    ∧ handleXAdd 5 ["t", "7-7", "f", "v"] []
      = .ok (encodeBulkString (some "7-7"),
          [("t", { value := .vstream [{ id := "7-7", fields := [("f", "v")] }],
                   typ := some .stream })]) := by
  have hone : jsNumberOfString "1" = some 1 := by
    have h := jsNumberOfString_digits ['1'] (by decide) (by decide)
    rw [(by decide : digitsVal ['1'] = 1)] at h
    simpa using h
  have htwo : jsNumberOfString "2" = some 2 := by
    have h := jsNumberOfString_digits ['2'] (by decide) (by decide)
    rw [(by decide : digitsVal ['2'] = 2)] at h
    simpa using h
  have hp11 : parseIdPair "1-1" = (some 1, some 1) := by
    unfold parseIdPair
    rw [show jsSplit "1-1" '-' = ["1", "1"] from rfl]
    simp [hone]
  have hp12 : parseIdPair "1-2" = (some 1, some 2) := by
    unfold parseIdPair
    rw [show jsSplit "1-2" '-' = ["1", "2"] from rfl]
    simp [hone, htwo]
  refine ⟨?_, ?_, ?_⟩
  · have h := (xaddExplicitIdValidation.1 5
      [("s", { value := .vstream [{ id := "1-1", fields := [("a", "b")] }],
               typ := some .stream })]
      "s" "1-2" ["f", "v"]
      { value := .vstream [{ id := "1-1", fields := [("a", "b")] }], typ := some .stream }
      [{ id := "1-1", fields := [("a", "b")] }] { id := "1-1", fields := [("a", "b")] }
      1 1 1 2 rfl rfl rfl hp11 hp12
      (by decide) (by decide) (by decide) (by decide)).1
    rw [h]
    norm_num
    rfl
  · have h := (xaddExplicitIdValidation.1 5
      [("s", { value := .vstream [{ id := "1-1", fields := [("a", "b")] }],
               typ := some .stream })]
      "s" "1-1" ["f", "v"]
      { value := .vstream [{ id := "1-1", fields := [("a", "b")] }], typ := some .stream }
      [{ id := "1-1", fields := [("a", "b")] }] { id := "1-1", fields := [("a", "b")] }
      1 1 1 1 rfl rfl rfl hp11 hp11
      (by decide) (by decide) (by decide) (by decide)).1
    rw [h]
    norm_num
  · exact xaddExplicitIdValidation.2.1 5 [] "t" "7-7" ["f", "v"] rfl
      (by decide) (by decide) (by decide) (by decide)

/-! ## C8: sorted-set ordering -/

/-- C8 (counterexample): a ZADD whose third score fails to parse aborts
mid-loop after writing the first two members through the live Map
reference, without the final re-sort; the key then holds a sorted set
whose ZRANGE 0 -1 listing is not sorted by (score, member) — "b" (score 2)
is listed before "a" (score 1) — contradicting the claim's statement that
every sorted set lists in sorted order. -/
theorem zaddPartialLeavesUnsorted :
    handleZAdd ["k", "2", "b", "1", "a", "xx", "c"] [] =
      (encodeError "ERR value is not a valid float",
       [("k", { value := .vzset [("b", 2), ("a", 1)], expiry := none,
                typ := some .zset })])
    ∧ handleZRange ["k", "0", "-1"]
        [("k", { value := .vzset [("b", 2), ("a", 1)], expiry := none,
                 typ := some .zset })]
      = .ok (encodeArray [some "b", some "a"])
    ∧ zsetLe ("b", (2 : ℚ)) ("a", (1 : ℚ)) = false := by
  have h2c : jsParseFloat "2" = some 2 := by
    have h := jsParseFloat_digits ['2'] (by decide) (by decide)
    rw [(by decide : digitsVal ['2'] = 2)] at h
    simpa using h
  have h1c : jsParseFloat "1" = some 1 := by
    have h := jsParseFloat_digits ['1'] (by decide) (by decide)
    rw [(by decide : digitsVal ['1'] = 1)] at h
    simpa using h
  have hxc : jsParseFloat "xx" = none := rfl
  refine ⟨?_, by rfl, by norm_num [zsetLe]⟩
  simp [handleZAdd, getSortedSet, kvGet, kvSet, chunk2, zaddLoop,
    h1c, h2c, hxc, zsetSet, zsetHas]

/-- C8 (amended): on a key whose entry holds a duplicate-free sorted-set
map already in (score asc, member asc) order — the invariant a fully
successful ZADD establishes — ZRANGE k 0 -1 lists exactly the map's
member sequence, ZRANK returns the member's 0-based index in that
sequence, and ZADD of an existing member rewrites its score, replies 0,
preserves the cardinality and re-establishes the sorted invariant; a ZADD
aborted by an unparseable score can leave the map unsorted, so the claim
holds only for sets last written by a completed ZADD. -/
theorem zsetSortedRangeRankAdd (store : Store) (k : String)
    (m : List (String × ℚ)) (exp : Option Int)
    (hk : kvGet store k = some { value := .vzset m, expiry := exp, typ := some .zset })
    (hnd : (m.map Prod.fst).Nodup)
    (hsort : m.Pairwise (fun a b => zsetLe a b = true)) :
    (handleZRange [k, "0", "-1"] store =
        .ok (encodeArray ((m.map Prod.fst).map some)))
    ∧ (∀ member i, m.findIdx? (fun p => p.1 = member) = some i →
        handleZRank [k, member] store = .ok (encodeInteger i))
    ∧ (∀ member scoreStr score, zsetHas m member = true →
        jsParseFloat scoreStr = some score →
        handleZAdd [k, scoreStr, member] store =
          (encodeInteger 0,
           kvSet store k
             { value := .vzset (rebuildSortedOrder (zsetSet m member score)),
               expiry := exp, typ := some .zset })
        ∧ (rebuildSortedOrder (zsetSet m member score)).length = m.length
        ∧ ZsetInv
            (kvSet store k
              { value := .vzset (rebuildSortedOrder (zsetSet m member score)),
                expiry := exp, typ := some .zset })
            k (rebuildSortedOrder (zsetSet m member score))) := by
  have hz : jsParseInt "0" = some 0 := rfl
  have hmo : jsParseInt "-1" = some (-1) := rfl
  refine ⟨?_, fun member i hfind => ?_, fun member scoreStr score hhas hparse => ?_⟩
  · have harity : (decide ([k, "0", "-1"].length < 3)
        || decide ([k, "0", "-1"].length > 4)) = false := by simp
    simp only [handleZRange, List.drop_succ_cons, List.drop_zero, List.headD_cons,
      harity, Bool.false_eq_true, if_false, hz, hmo, hk]
    rw [if_neg (by simp)]
    by_cases hm0 : m = []
    · subst hm0
      simp
    · have hnp : 0 < m.length := List.length_pos.mpr hm0
      have e0 : (if (0 : Int) < 0 then 0 ⊔ ((m.length : Int) + 0) else 0) = 0 := by
        norm_num
      have e1 : (if (-1 : Int) < 0 then -1 ⊔ ((m.length : Int) + -1) else -1)
          = (m.length : Int) - 1 := by
        rw [if_pos (by norm_num)]
        omega
      simp only [List.length_map]
      rw [e0, e1]
      rw [if_neg (show ¬ ((0 : Int) ≥ (m.length : Int)) by omega)]
      rw [if_neg (show ¬ ((m.length : Int) - 1 ≥ (m.length : Int)) by omega)]
      rw [if_neg (show ¬ ((0 : Int) > (m.length : Int) - 1) by omega)]
      rw [if_neg (by simp)]
      rw [show ((m.length : Int) - 1 + 1 - 0).toNat = m.length by omega]
      simp [List.take_of_length_le]
  · have hhas := zsetHas_of_findIdx m member i 0 hfind
    simp [handleZRank, hk, hhas, hfind]
  · have hg : getSortedSet store k =
        .ok ({ value := .vzset m, expiry := exp, typ := some .zset }, store) := by
      simp [getSortedSet, hk]
    have hloop : zaddLoop [(scoreStr, member)] m 0 =
        .ok (zsetSet m member score, 0) := by
      simp [zaddLoop, hparse, hhas]
    have hstep : handleZAdd [k, scoreStr, member] store =
        (encodeInteger 0,
         kvSet store k
           { value := .vzset (rebuildSortedOrder (zsetSet m member score)),
             expiry := exp, typ := some .zset }) := by
      have harity : (decide ([k, scoreStr, member].length < 3)
          || decide ([k, scoreStr, member].length % 2 = 0)) = false := by simp
      simp only [handleZAdd, List.drop_succ_cons, List.drop_zero, List.headD_cons,
        harity, Bool.false_eq_true, if_false]
      rw [hg]
      dsimp only
      rw [show chunk2 [scoreStr, member] = [(scoreStr, member)] from rfl]
      rw [hloop]
      simp
    have hperm : (rebuildSortedOrder (zsetSet m member score)).Perm
        (zsetSet m member score) := List.mergeSort_perm _ _
    have hlenr : (rebuildSortedOrder (zsetSet m member score)).length = m.length := by
      rw [rebuildSortedOrder, List.length_mergeSort]
      have := congrArg List.length (zsetSet_map_fst m member score hhas)
      simpa using this
    refine ⟨hstep, hlenr, ⟨exp, kvGet_kvSet_self store k _⟩, ?_, ?_⟩
    · have hpm : ((rebuildSortedOrder (zsetSet m member score)).map Prod.fst).Perm
          (m.map Prod.fst) := by
        rw [← zsetSet_map_fst m member score hhas]
        exact hperm.map Prod.fst
      exact hpm.nodup_iff.mpr hnd
    · exact List.sorted_mergeSort zsetLe_trans zsetLe_total _

/-- Witness for zsetSortedRankAdd on the two-member set a↦1, b↦2:
ZRANGE lists a then b, ZRANK b is 1, and ZADD z 5 a replies 0 keeping two
members. -/
theorem zsetSortedRangeRankAddWitness :
    handleZRange ["z", "0", "-1"]
        [("z", { value := .vzset [("a", 1), ("b", 2)], expiry := none,
                 typ := some .zset })]
      = .ok (encodeArray [some "a", some "b"])
    ∧ handleZRank ["z", "b"]
        [("z", { value := .vzset [("a", 1), ("b", 2)], expiry := none,
                 typ := some .zset })]
      = .ok (encodeInteger 1)
    ∧ handleZAdd ["z", "5", "a"]
        [("z", { value := .vzset [("a", 1), ("b", 2)], expiry := none,
                 typ := some .zset })]
      = (encodeInteger 0,
         kvSet [("z", { value := .vzset [("a", 1), ("b", 2)], expiry := none,
                        typ := some .zset })] "z"
           { value := .vzset (rebuildSortedOrder (zsetSet [("a", 1), ("b", 2)] "a" 5)),
             expiry := none, typ := some .zset })
    ∧ (rebuildSortedOrder (zsetSet [("a", 1), ("b", 2)] "a" 5)).length
        = [("a", (1 : ℚ)), ("b", 2)].length := by
  have h5 : jsParseFloat "5" = some 5 := by
    have h := jsParseFloat_digits ['5'] (by decide) (by decide)
    rw [(by decide : digitsVal ['5'] = 5)] at h
    simpa using h
  have h := zsetSortedRangeRankAdd
    [("z", { value := .vzset [("a", 1), ("b", 2)], expiry := none,
             typ := some .zset })]
    "z" [("a", 1), ("b", 2)] none rfl (by decide)
    (by norm_num [List.pairwise_cons, zsetLe])
  have hzadd := h.2.2 "a" "5" 5 (by decide) h5
  refine ⟨?_, h.2.1 "b" 1 (by decide), hzadd.1, hzadd.2.1⟩
  rw [h.1]
  rfl

/-! ## C7: geo score bit interleaving -/

/-- Bits at or above the width of a bounded number are clear. -/
theorem testBit_big {c : Nat} (hc : c < 2 ^ 64) {i : Nat} (h : ¬ i < 64) :
    Nat.testBit c i = false :=
  Nat.testBit_lt_two_pow
    (lt_of_lt_of_le hc (Nat.pow_le_pow_right (by norm_num) (by omega)))

/-- Bit pattern of the 32-bit mask. -/
theorem testBit_mask32 (i : Nat) :
    Nat.testBit 0xffffffff i = decide (i < 32) := by
  by_cases h : i < 64
  · have h2 := (by decide :
      ∀ j, j < 64 → Nat.testBit 0xffffffff j = decide (j < 32))
    exact h2 i h
  · rw [testBit_big (by norm_num) h]
    simp
    omega

/-- Bit pattern of the 16-bit spreading mask. -/
theorem testBit_m16 (i : Nat) :
    Nat.testBit 0x0000ffff0000ffff i
      = (decide (i < 64) && decide (i % 32 < 16)) := by
  by_cases h : i < 64
  · have h2 := (by decide :
      ∀ j, j < 64 → Nat.testBit 0x0000ffff0000ffff j = decide (j % 32 < 16))
    simp [h, h2 i h]
  · rw [testBit_big (by norm_num) h]
    simp [h]

/-- Bit pattern of the 8-bit spreading mask. -/
theorem testBit_m8 (i : Nat) :
    Nat.testBit 0x00ff00ff00ff00ff i
      = (decide (i < 64) && decide (i % 16 < 8)) := by
  by_cases h : i < 64
  · have h2 := (by decide :
      ∀ j, j < 64 → Nat.testBit 0x00ff00ff00ff00ff j = decide (j % 16 < 8))
    simp [h, h2 i h]
  · rw [testBit_big (by norm_num) h]
    simp [h]

/-- Bit pattern of the 4-bit spreading mask. -/
theorem testBit_m4 (i : Nat) :
    Nat.testBit 0x0f0f0f0f0f0f0f0f i
      = (decide (i < 64) && decide (i % 8 < 4)) := by
  by_cases h : i < 64
  · have h2 := (by decide :
      ∀ j, j < 64 → Nat.testBit 0x0f0f0f0f0f0f0f0f j = decide (j % 8 < 4))
    simp [h, h2 i h]
  · rw [testBit_big (by norm_num) h]
    simp [h]

/-- Bit pattern of the 2-bit spreading mask. -/
theorem testBit_m2 (i : Nat) :
    Nat.testBit 0x3333333333333333 i
      = (decide (i < 64) && decide (i % 4 < 2)) := by
  by_cases h : i < 64
  · have h2 := (by decide :
      ∀ j, j < 64 → Nat.testBit 0x3333333333333333 j = decide (j % 4 < 2))
    simp [h, h2 i h]
  · rw [testBit_big (by norm_num) h]
    simp [h]

/-- Bit pattern of the alternating mask. -/
theorem testBit_m1 (i : Nat) :
    Nat.testBit 0x5555555555555555 i
      = (decide (i < 64) && decide (i % 2 = 0)) := by
  by_cases h : i < 64
  · have h2 := (by decide :
      ∀ j, j < 64 → Nat.testBit 0x5555555555555555 j = decide (j % 2 = 0))
    simp [h, h2 i h]
  · rw [testBit_big (by norm_num) h]
    simp [h]

set_option maxHeartbeats 2000000 in
/-- The mask-and-shift chain places bit i of the input at bit 2i of the
output and clears the odd positions. -/
theorem spread32Core_testBit (v : Nat) : ∀ i : Nat, i < 64 →
    (spread32Core v).testBit i =
      (if i % 2 = 0 then v.testBit (i / 2) else false) := by
  intro i hi
  interval_cases i <;>
    simp [spread32Core, Nat.testBit_and, Nat.testBit_or, Nat.testBit_shiftLeft,
      testBit_mask32, testBit_m16, testBit_m8, testBit_m4, testBit_m2, testBit_m1]

/-- The spread result is bounded by its final mask. -/
theorem spread32Core_le_mask (v : Nat) :
    spread32Core v ≤ 0x5555555555555555 := by
  unfold spread32Core
  exact Nat.and_le_right

/-- A 26-bit input spreads onto at most bit 50, below 2 to the 51st. -/
theorem spread32Core_lt (v : Nat) (hv : v < 2 ^ 26) :
    spread32Core v < 2 ^ 51 := by
  apply Nat.lt_pow_two_of_testBit
  intro i hi
  by_cases h64 : i < 64
  · rw [spread32Core_testBit v i h64]
    by_cases hp : i % 2 = 0
    · rw [if_pos hp]
      exact Nat.testBit_lt_two_pow
        (lt_of_lt_of_le hv (Nat.pow_le_pow_right (by norm_num) (by omega)))
    · rw [if_neg hp]
  · exact testBit_big (lt_of_le_of_lt (spread32Core_le_mask v) (by norm_num)) h64

/-- On a nonnegative 32-bit value the BigInt truncation is the identity. -/
theorem spread32BitsTo64Bits_natCast (n : Nat) (h : n < 2 ^ 32) :
    spread32BitsTo64Bits (n : Int) = spread32Core n := by
  unfold spread32BitsTo64Bits
  rw [Int.emod_eq_of_lt (Int.natCast_nonneg n) (by exact_mod_cast h)]
  rw [Int.toNat_natCast]

/-- Bit j of the interleave of two spread words reads bit j/2 of the first
word at even j and of the second word at odd j. -/
theorem interleave_core_testBit (xN yN : Nat) (j : Nat) (hj : j < 64) :
    (spread32Core xN ||| (spread32Core yN <<< 1)).testBit j =
      (if j % 2 = 0 then xN.testBit (j / 2) else yN.testBit (j / 2)) := by
  rw [Nat.testBit_or, Nat.testBit_shiftLeft]
  by_cases hp : j % 2 = 0
  · rw [spread32Core_testBit xN j hj, if_pos hp, if_pos hp]
    by_cases hj0 : j = 0
    · subst hj0
      simp
    · rw [spread32Core_testBit yN (j - 1) (by omega)]
      rw [if_neg (by omega)]
      simp
  · rw [spread32Core_testBit xN j hj, if_neg hp, if_neg hp]
    rw [spread32Core_testBit yN (j - 1) (by omega), if_pos (by omega)]
    have hdiv : (j - 1) / 2 = j / 2 := by omega
    simp [show 1 ≤ j by omega, hdiv]

/-- The grid normalization of a coordinate inside its half-open range
floors to an index between 0 and 2^26 - 1. -/
theorem geoGridIndexBounds (x minC range : ℚ) (hr : 0 < range)
    (h1 : minC ≤ x) (h2 : x < minC + range) :
    0 ≤ ⌊2 ^ 26 * (x - minC) / range⌋
      ∧ ⌊2 ^ 26 * (x - minC) / range⌋ < 2 ^ 26 := by
  constructor
  · exact Int.floor_nonneg.mpr
      (div_nonneg (mul_nonneg (by positivity) (by linarith)) hr.le)
  · rw [Int.floor_lt]
    push_cast
    rw [div_lt_iff hr]
    nlinarith [mul_lt_mul_of_pos_left (show x - minC < range by linarith)
      (show (0 : ℚ) < 2 ^ 26 by positivity)]

/-- C7 (counterexample): the grid cell one latitude step above the minimum
corner scores 1 = bit 0 set — latitude occupies the EVEN positions — while
the spec's claimed placement (latitude odd, longitude even) would score
2; the claim has the two parities swapped. -/
theorem geoInterleaveParitySwapped :
    encodeGeoHash (MIN_LATITUDE + LATITUDE_RANGE / 2 ^ 26) MIN_LONGITUDE = 1
    ∧ specGeoScoreLatOdd (MIN_LATITUDE + LATITUDE_RANGE / 2 ^ 26) MIN_LONGITUDE
        = 2 := by
  have hlat : (2 ^ 26 * ((MIN_LATITUDE + LATITUDE_RANGE / 2 ^ 26) - MIN_LATITUDE)
      / LATITUDE_RANGE : ℚ) = 1 := by
    norm_num [MIN_LATITUDE, MAX_LATITUDE, LATITUDE_RANGE]
  have hlon : (2 ^ 26 * (MIN_LONGITUDE - MIN_LONGITUDE) / LONGITUDE_RANGE : ℚ)
      = 0 := by
    norm_num
  constructor
  · simp only [encodeGeoHash, hlat, hlon]
    rw [show ⌊(1 : ℚ)⌋ = 1 from Int.floor_one, show ⌊(0 : ℚ)⌋ = 0 from Int.floor_zero]
    rfl
  · simp only [specGeoScoreLatOdd, hlat, hlon]
    rw [show ⌊(1 : ℚ)⌋ = 1 from Int.floor_one, show ⌊(0 : ℚ)⌋ = 0 from Int.floor_zero]
    rfl

/-- C7 (amended): for coordinates in the half-open ranges the normalization
floors to 26-bit grid indices and the interleave places the LATITUDE bits
on the even positions and the LONGITUDE bits on the odd positions (the
transpose of the claimed placement), the score staying below 2^52; at the
closed right endpoints the claim's 26-bit-index premise itself fails (the
index reaches 2^26). -/
theorem geoLatEvenLonOdd (lat lon : ℚ)
    (h1 : MIN_LATITUDE ≤ lat) (h2 : lat < MAX_LATITUDE)
    (h3 : MIN_LONGITUDE ≤ lon) (h4 : lon < MAX_LONGITUDE) :
    ∃ latN lonN : Nat,
      ⌊2 ^ 26 * (lat - MIN_LATITUDE) / LATITUDE_RANGE⌋ = (latN : Int)
      ∧ ⌊2 ^ 26 * (lon - MIN_LONGITUDE) / LONGITUDE_RANGE⌋ = (lonN : Int)
      ∧ latN < 2 ^ 26 ∧ lonN < 2 ^ 26
      ∧ (∀ i, i < 26 →
          (encodeGeoHash lat lon).testBit (2 * i) = latN.testBit i
          ∧ (encodeGeoHash lat lon).testBit (2 * i + 1) = lonN.testBit i)
      ∧ encodeGeoHash lat lon < 2 ^ 52 := by
  have hRlat : (0 : ℚ) < LATITUDE_RANGE := by
    norm_num [LATITUDE_RANGE, MAX_LATITUDE, MIN_LATITUDE]
  have hRlon : (0 : ℚ) < LONGITUDE_RANGE := by
    norm_num [LONGITUDE_RANGE, MAX_LONGITUDE, MIN_LONGITUDE]
  have hlatB := geoGridIndexBounds lat MIN_LATITUDE LATITUDE_RANGE hRlat h1
    (by rw [show MIN_LATITUDE + LATITUDE_RANGE = MAX_LATITUDE by
          norm_num [MIN_LATITUDE, MAX_LATITUDE, LATITUDE_RANGE]]
        exact h2)
  have hlonB := geoGridIndexBounds lon MIN_LONGITUDE LONGITUDE_RANGE hRlon h3
    (by rw [show MIN_LONGITUDE + LONGITUDE_RANGE = MAX_LONGITUDE by
          norm_num [MIN_LONGITUDE, MAX_LONGITUDE, LONGITUDE_RANGE]]
        exact h4)
  have hE : encodeGeoHash lat lon =
      spread32Core (⌊2 ^ 26 * (lat - MIN_LATITUDE) / LATITUDE_RANGE⌋).toNat
        ||| (spread32Core
              (⌊2 ^ 26 * (lon - MIN_LONGITUDE) / LONGITUDE_RANGE⌋).toNat <<< 1) := by
    simp only [encodeGeoHash, interleaveBits]
    rw [show ⌊2 ^ 26 * (lat - MIN_LATITUDE) / LATITUDE_RANGE⌋ =
          ((⌊2 ^ 26 * (lat - MIN_LATITUDE) / LATITUDE_RANGE⌋).toNat : Int)
        from (Int.toNat_of_nonneg hlatB.1).symm,
      show ⌊2 ^ 26 * (lon - MIN_LONGITUDE) / LONGITUDE_RANGE⌋ =
          ((⌊2 ^ 26 * (lon - MIN_LONGITUDE) / LONGITUDE_RANGE⌋).toNat : Int)
        from (Int.toNat_of_nonneg hlonB.1).symm]
    rw [spread32BitsTo64Bits_natCast _ (by omega),
      spread32BitsTo64Bits_natCast _ (by omega)]
    simp [Int.toNat_natCast, sup_eq_left.mpr hlatB.1, sup_eq_left.mpr hlonB.1]
  refine ⟨(⌊2 ^ 26 * (lat - MIN_LATITUDE) / LATITUDE_RANGE⌋).toNat,
    (⌊2 ^ 26 * (lon - MIN_LONGITUDE) / LONGITUDE_RANGE⌋).toNat,
    (Int.toNat_of_nonneg hlatB.1).symm, (Int.toNat_of_nonneg hlonB.1).symm,
    by omega, by omega, ?_, ?_⟩
  · intro i hi
    rw [hE]
    refine ⟨?_, ?_⟩
    · rw [interleave_core_testBit _ _ _ (by omega), if_pos (by omega)]
      congr 1
      omega
    · rw [interleave_core_testBit _ _ _ (by omega), if_neg (by omega)]
      congr 1
      omega
  · rw [hE]
    refine Nat.or_lt_two_pow ?_ ?_
    · exact lt_trans (spread32Core_lt _ (by omega)) (by norm_num)
    · have := @Nat.shiftLeft_lt
        (spread32Core (⌊2 ^ 26 * (lon - MIN_LONGITUDE) / LONGITUDE_RANGE⌋).toNat)
        51 1 (spread32Core_lt _ (by omega))
      simpa using this

/-- Witness for geoLatEvenLonOdd at the cell one latitude step above the
minimum corner: the in-range hypotheses hold and the placement follows. -/
theorem geoLatEvenLonOddWitness :
    MIN_LATITUDE ≤ MIN_LATITUDE + LATITUDE_RANGE / 2 ^ 26
    ∧ MIN_LATITUDE + LATITUDE_RANGE / 2 ^ 26 < MAX_LATITUDE
    ∧ MIN_LONGITUDE ≤ MIN_LONGITUDE ∧ MIN_LONGITUDE < MAX_LONGITUDE
    ∧ (∃ latN lonN : Nat,
        ⌊2 ^ 26 * ((MIN_LATITUDE + LATITUDE_RANGE / 2 ^ 26) - MIN_LATITUDE)
            / LATITUDE_RANGE⌋ = (latN : Int)
        ∧ ⌊2 ^ 26 * (MIN_LONGITUDE - MIN_LONGITUDE) / LONGITUDE_RANGE⌋
            = (lonN : Int)
        ∧ latN < 2 ^ 26 ∧ lonN < 2 ^ 26
        ∧ (∀ i, i < 26 →
            (encodeGeoHash (MIN_LATITUDE + LATITUDE_RANGE / 2 ^ 26)
                MIN_LONGITUDE).testBit (2 * i) = latN.testBit i
            ∧ (encodeGeoHash (MIN_LATITUDE + LATITUDE_RANGE / 2 ^ 26)
                MIN_LONGITUDE).testBit (2 * i + 1) = lonN.testBit i)
        ∧ encodeGeoHash (MIN_LATITUDE + LATITUDE_RANGE / 2 ^ 26) MIN_LONGITUDE
            < 2 ^ 52) := by
  refine ⟨?_, ?_, le_refl _, ?_, ?_⟩
  · norm_num [MIN_LATITUDE, MAX_LATITUDE, LATITUDE_RANGE]
  · norm_num [MIN_LATITUDE, MAX_LATITUDE, LATITUDE_RANGE]
  · norm_num [MIN_LONGITUDE, MAX_LONGITUDE]
  · exact geoLatEvenLonOdd (MIN_LATITUDE + LATITUDE_RANGE / 2 ^ 26) MIN_LONGITUDE
      (by norm_num [MIN_LATITUDE, MAX_LATITUDE, LATITUDE_RANGE])
      (by norm_num [MIN_LATITUDE, MAX_LATITUDE, LATITUDE_RANGE])
      (le_refl _)
      (by norm_num [MIN_LONGITUDE, MAX_LONGITUDE])

/-! ## C5: RESP byte accounting -/

/-- The characters of a rendered natural. -/
theorem natToString_data (n : Nat) : (natToString n).data = natDecimal n := rfl

/-- The length of a rendered natural. -/
theorem natToString_length (n : Nat) :
    (natToString n).length = (natDecimal n).length := rfl

/-- The characters of the CRLF terminator. -/
theorem CRLF_data : CRLF.data = ['\r', '\n'] := rfl

/-- findCRLF on a digit run followed by CRLF reports the run's length. -/
theorem findCRLF_digits (ds : List Char) (hd : ∀ x ∈ ds, isDigitChar x = true)
    (tail : List Char) :
    findCRLF (ds ++ '\r' :: '\n' :: tail) = some ds.length := by
  induction ds with
  | nil => simp [findCRLF]
  | cons d rest ih =>
    have hf := isDigitChar_facts (hd d (by simp))
    simp only [List.cons_append, findCRLF]
    rw [if_neg (by simp [hf.2.2.2.2.2.1])]
    simp [List.append_eq, ih (fun x hx => hd x (by simp [hx]))]

/-- parseInt reads a rendered natural back. -/
theorem jsParseInt_natDecimal (n : Nat) :
    jsParseInt (String.mk (natDecimal n)) = some (n : Int) := by
  rw [jsParseInt_digits (natDecimal n) (natDecimal_digits n) (natDecimal_ne_nil n),
    digitsVal_natDecimal]
  simp

/-- Parsing a bulk-string frame returns the payload and consumes exactly
the frame. -/
theorem parseValue_bulk (fuel : Nat) (p : String) (tail : List Char) :
    parseValue (fuel + 1)
      ('$' :: (natDecimal p.length ++ '\r' :: '\n' :: (p.data ++ '\r' :: '\n' :: tail)))
      = some (.rstr p, tail) := by
  simp only [parseValue]
  rw [if_neg (by decide), if_neg (by decide), if_pos (by decide)]
  rw [findCRLF_digits (natDecimal p.length) (natDecimal_digits _) _]
  dsimp only
  rw [List.take_left]
  rw [jsParseInt_natDecimal]
  dsimp only
  rw [if_neg (by omega)]
  rw [show natDecimal p.length ++ '\r' :: '\n' :: (p.data ++ '\r' :: '\n' :: tail)
        = (natDecimal p.length ++ ['\r', '\n']) ++ (p.data ++ '\r' :: '\n' :: tail)
      from by simp]
  rw [List.drop_left' (by simp)]
  rw [Int.toNat_natCast]
  rw [List.take_left' (show p.data.length = p.length from rfl)]
  rw [show p.data ++ '\r' :: '\n' :: tail = (p.data ++ ['\r', '\n']) ++ tail
      from by simp]
  rw [List.drop_left' (by simp)]

/-- Parsing the concatenated bulk frames of a part list returns the parts
in order and consumes exactly those frames. -/
theorem parseElems_encode (fuel : Nat) :
    ∀ (parts : List String) (rest : List Char),
      parseElems (fuel + 1) parts.length
        ((parts.map (fun p => '$' :: (natDecimal p.length ++ '\r' :: '\n' ::
            (p.data ++ ['\r', '\n'])))).flatten ++ rest)
        = some (parts.map .rstr, rest) := by
  intro parts
  induction parts with
  | nil => intro rest; simp [parseElems]
  | cons p ps ih =>
    intro rest
    simp only [List.map_cons, List.flatten_cons, List.length_cons,
      List.cons_append, List.append_assoc, List.nil_append]
    simp only [parseElems]
    rw [parseValue_bulk fuel p _]
    dsimp only
    rw [ih rest]

/-- The characters produced by the encoding fold: the seed followed by one
bulk frame per part. -/
theorem encodeRESP_data :
    ∀ (l : List String) (s : String),
      (l.foldl (fun resp part =>
          resp ++ "$" ++ natToString part.length ++ CRLF ++ part ++ CRLF) s).data
        = s.data ++ (l.map (fun p => '$' :: (natDecimal p.length ++ '\r' :: '\n' ::
            (p.data ++ ['\r', '\n'])))).flatten := by
  intro l
  induction l with
  | nil => intro s; simp
  | cons p ps ih =>
    intro s
    simp only [List.foldl_cons, List.map_cons, List.flatten_cons]
    rw [ih]
    simp [String.data_append, natToString_data, CRLF_data,
      show ("$" : String).data = ['$'] from rfl]

/-- The byte-counting fold is the seed plus one frame size per part. -/
theorem calculateRESP_foldl :
    ∀ (l : List String) (acc : Nat),
      l.foldl (fun t p => t + (1 + (natToString p.length).length + 2 + p.length + 2)) acc
        = acc + (l.map
            (fun p => 1 + (natToString p.length).length + 2 + p.length + 2)).sum := by
  intro l
  induction l with
  | nil => intro acc; simp
  | cons p ps ih =>
    intro acc
    simp only [List.foldl_cons, List.map_cons, List.sum_cons]
    rw [ih]
    omega

/-- The reported byte count is the encoded length. -/
theorem encodeRESP_length (c : String) (args : List String) :
    (encodeRESPCommand c args).length = calculateRESPCommandBytes c args := by
  show (encodeRESPCommand c args).data.length = _
  simp only [encodeRESPCommand, calculateRESPCommandBytes]
  rw [encodeRESP_data, calculateRESP_foldl]
  rw [List.length_append, List.length_flatten, List.map_map]
  have hchunk : (List.length ∘ fun p : String =>
        '$' :: (natDecimal p.length ++ '\r' :: '\n' :: (p.data ++ ['\r', '\n'])))
      = (fun p : String => 1 + (natToString p.length).length + 2 + p.length + 2) := by
    funext p
    simp [natToString_length]
    omega
  rw [hchunk]
  simp only [String.data_append, natToString_data, CRLF_data,
    show ("*" : String).data = ['*'] from rfl, natToString_length,
    List.length_append, List.length_cons, List.length_nil]

/-- Parsing an encoded command frame returns the array of bulk strings and
consumes exactly the frame, leaving the appended remainder. -/
theorem parseValue_encode (fuel : Nat) (c : String) (args : List String)
    (rest : List Char) :
    parseValue (fuel + 2) ((encodeRESPCommand c args).data ++ rest)
      = some (.rarr ((c :: args).map .rstr), rest) := by
  have hdata : (encodeRESPCommand c args).data
      = '*' :: (natDecimal (args.length + 1) ++ '\r' :: '\n' ::
          ((c :: args).map (fun p => '$' :: (natDecimal p.length ++ '\r' :: '\n' ::
            (p.data ++ ['\r', '\n'])))).flatten) := by
    simp only [encodeRESPCommand]
    rw [encodeRESP_data]
    simp [String.data_append, natToString_data, CRLF_data,
      show ("*" : String).data = ['*'] from rfl]
  rw [hdata]
  simp only [List.cons_append, List.append_assoc]
  simp only [parseValue]
  rw [if_neg (by decide), if_neg (by decide), if_neg (by decide), if_pos (by decide)]
  rw [findCRLF_digits (natDecimal (args.length + 1)) (natDecimal_digits _) _]
  dsimp only
  rw [List.take_left]
  rw [jsParseInt_natDecimal]
  dsimp only
  rw [if_neg (by omega)]
  rw [show natDecimal (args.length + 1) ++ '\r' :: '\n' ::
        (((c :: args).map (fun p => '$' :: (natDecimal p.length ++ '\r' :: '\n' ::
          (p.data ++ ['\r', '\n'])))).flatten ++ rest)
      = (natDecimal (args.length + 1) ++ ['\r', '\n']) ++
        (((c :: args).map (fun p => '$' :: (natDecimal p.length ++ '\r' :: '\n' ::
          (p.data ++ ['\r', '\n'])))).flatten ++ rest) from by simp]
  rw [List.drop_left' (by simp)]
  rw [Int.toNat_natCast]
  rw [show args.length + 1 = (c :: args).length from rfl]
  rw [parseElems_encode fuel (c :: args) rest]

/-- C5: for every (command, args) pair the reported byte count
(calculateRESPCommandBytes, and the replication manager's textually
identical calculateCommandBytes) equals the length of the
encodeRESPCommand array-of-bulk-strings wire form, and the parser
consumes exactly that frame: on the encoding followed by any remainder it
returns the array of bulk strings and leaves precisely the remainder. -/
theorem respByteAccounting (c : String) (args : List String)
    (rest : List Char) (fuel : Nat) :
    (encodeRESPCommand c args).length = calculateRESPCommandBytes c args
    ∧ calculateCommandBytes c args = calculateRESPCommandBytes c args
    ∧ parseValue (fuel + 2) ((encodeRESPCommand c args).data ++ rest)
        = some (.rarr ((c :: args).map .rstr), rest) :=
  ⟨encodeRESP_length c args, rfl, parseValue_encode fuel c args rest⟩

/-! ## C4: replica offset accounting -/

/-- Every command frame occupies at least one byte. -/
theorem calculateRESP_pos (c : String) (args : List String) :
    1 ≤ calculateRESPCommandBytes c args := by
  unfold calculateRESPCommandBytes
  rw [calculateRESP_foldl]
  omega

/-- An encoded command frame is never empty. -/
theorem encodeRESPCommand_data_ne_nil (c : String) (args : List String) :
    ¬ (encodeRESPCommand c args).data = [] := by
  intro h
  have h1 := encodeRESP_length c args
  have h2 := calculateRESP_pos c args
  rw [show (encodeRESPCommand c args).length
      = (encodeRESPCommand c args).data.length from rfl, h] at h1
  simp at h1
  omega

/-- Uppercasing preserves the length, so the replica's byte count of the
uppercased command equals the frame size of the original. -/
theorem calculateCommandBytes_toUpper (c : String) (args : List String) :
    calculateCommandBytes (jsToUpper c) args = calculateRESPCommandBytes c args := by
  have hlen : (jsToUpper c).length = c.length := by
    simp [jsToUpper]
  unfold calculateCommandBytes calculateRESPCommandBytes
  rw [calculateRESP_foldl, calculateRESP_foldl]
  simp [hlen]

/-- Parsing an encoded frame at the head of the buffer yields the
uppercased command and the original arguments. -/
theorem parseRESPCommand_encode (c : String) (args : List String)
    (rest : List Char) :
    parseRESPCommand ((encodeRESPCommand c args).data ++ rest)
      = some (jsToUpper c, args) := by
  have hne := encodeRESPCommand_data_ne_nil c args
  have hge : 0 < ((encodeRESPCommand c args).data ++ rest).length := by
    simp only [List.length_append]
    have := List.length_pos.mpr hne
    omega
  unfold parseRESPCommand
  rw [show ((encodeRESPCommand c args).data ++ rest).length + 1
        = (((encodeRESPCommand c args).data ++ rest).length - 1) + 2 from by omega]
  rw [parseValue_encode]
  dsimp only
  rw [if_neg (by simp)]
  simp only [List.headD_cons, List.map_cons, List.drop_succ_cons, List.drop_zero,
    List.map_map]
  have h0 : jsStringOfResp (JsResp.rstr c) = c := by
    simp [jsStringOfResp]
  have h1 : ∀ a ∈ args, (jsStringOfResp ∘ JsResp.rstr) a = id a := by
    intro a _
    simp [jsStringOfResp]
  rw [h0, List.map_congr_left h1, List.map_id]

/-- C4: a replica consuming a buffer of propagated command frames applies
them all: each GETACK is answered with the offset accumulated strictly
before it, every frame (GETACK included) then adds its wire-byte count to
the applied offset, and non-GETACK commands are forwarded; the final
offset is the starting offset plus the total byte count. -/
theorem replicaOffsetAccounting :
    ∀ (cmds : List (String × List String)) (off : Nat),
      processLoop
        { buffer := (cmds.map (fun p => (encodeRESPCommand p.1 p.2).data)).flatten,
          replicationOffset := off }
        = ({ buffer := [],
             replicationOffset :=
               off + (cmds.map
                 (fun p => calculateCommandBytes (jsToUpper p.1) p.2)).sum },
           traceFrom off cmds) := by
  intro cmds
  induction cmds with
  | nil =>
    intro off
    simp [processLoop, traceFrom]
  | cons pc rest ih =>
    intro off
    obtain ⟨c, args⟩ := pc
    have hne : ¬ ((encodeRESPCommand c args).data
        ++ (rest.map (fun p => (encodeRESPCommand p.1 p.2).data)).flatten) = [] := by
      simp [encodeRESPCommand_data_ne_nil c args]
    have hbytes : (encodeRESPCommand c args).data.length
        = calculateCommandBytes (jsToUpper c) args := by
      rw [calculateCommandBytes_toUpper]
      exact encodeRESP_length c args
    rw [processLoop]
    simp only [List.map_cons, List.flatten_cons]
    rw [dif_neg hne]
    rw [parseRESPCommand_encode c args _]
    dsimp only
    rw [List.drop_left' hbytes]
    by_cases hga : getAckDetected (jsToUpper c) args = true
    · rw [if_pos hga]
      rw [ih (off + calculateCommandBytes (jsToUpper c) args)]
      simp [traceFrom, hga, Nat.add_assoc]
    · rw [if_neg hga]
      rw [ih (off + calculateCommandBytes (jsToUpper c) args)]
      simp [traceFrom, hga, Nat.add_assoc]

end RedisSpec
